import Mathlib

/-!
Verification development for the extracted bitcoin subsystem
(`src/checkqueue.h`, `src/feetool.cpp`, `src/policyestimator.h`):
the block fee/priority estimator (`TxConfirmStats`, `CBlockPolicyEstimator`),
its binary serialization, the feetool reader (`TxConfirmStat`), and the
parallel check queue (`CCheckQueue`, `CCheckQueueControl`).

C++ `double` values are modelled as exact rationals (`ℚ`); machine doubles
only pass through the code unchanged or take part in +, *, /, comparisons,
all of which the claims use at the algebraic level.  C++ `std::vector` is a
Lean `List`; out-of-range writes (undefined behaviour in C++) are modelled
as no-ops and never arise on the states the claims speak about.
-/

namespace BtcSpec

/-! ### Generic list helpers (model of indexed vector loops) -/

/-- `mapIdxFrom f n l` applies `f` to every element of `l` together with its
index, indices starting at `n`.  Models a C++ `for (i = n; ...)` loop that
rewrites `l[i]`. -/
def mapIdxFrom (f : Nat → α → α) : Nat → List α → List α
  | _, [] => []
  | n, a :: as => f n a :: mapIdxFrom f (n + 1) as

/-- `mapIdx0 f l` rewrites every `l[i]` to `f i l[i]`. -/
def mapIdx0 (f : Nat → α → α) (l : List α) : List α := mapIdxFrom f 0 l

theorem length_mapIdxFrom (f : Nat → α → α) (n : Nat) (l : List α) :
    (mapIdxFrom f n l).length = l.length := by
  induction l generalizing n with
  | nil => rfl
  | cons a as ih => simp [mapIdxFrom, ih]

theorem length_mapIdx0 (f : Nat → α → α) (l : List α) :
    (mapIdx0 f l).length = l.length := length_mapIdxFrom f 0 l

theorem getD_mapIdxFrom_lt (f : Nat → α → α) (n : Nat) (l : List α) (i : Nat)
    (h : i < l.length) (d d' : α) :
    (mapIdxFrom f n l).getD i d = f (n + i) (l.getD i d') := by
  induction l generalizing n i with
  | nil => simp at h
  | cons a as ih =>
    cases i with
    | zero => simp [mapIdxFrom]
    | succ i =>
      simp only [mapIdxFrom, List.getD_cons_succ]
      rw [ih (n + 1) i (by simpa using h)]
      ring_nf

theorem getD_mapIdx0_lt (f : Nat → α → α) (l : List α) (i : Nat)
    (h : i < l.length) (d d' : α) :
    (mapIdx0 f l).getD i d = f i (l.getD i d') := by
  simpa using getD_mapIdxFrom_lt f 0 l i h d d'

theorem getD_mapIdx0_ge (f : Nat → α → α) (l : List α) (i : Nat)
    (h : l.length ≤ i) (d : α) : (mapIdx0 f l).getD i d = d := by
  apply List.getD_eq_default
  simpa [length_mapIdx0] using h

/-- Model of `std::vector::resize`: keep a prefix, pad with the default. -/
def listResize (l : List α) (n : Nat) (dflt : α) : List α :=
  l.take n ++ List.replicate (n - l.length) dflt

theorem listResize_eq_self (l : List α) (dflt : α) :
    listResize l l.length dflt = l := by
  simp [listResize]

/-! ### `std::map<double, unsigned int>` (the bucket map) -/

/-- Sorted association list standing for the `std::map` ordered by key;
`mapInsert` is `operator[]` assignment (insert or overwrite). -/
def mapInsert : List (ℚ × Nat) → ℚ → Nat → List (ℚ × Nat)
  | [], k, i => [(k, i)]
  | (k0, i0) :: rest, k, i =>
    if k < k0 then (k, i) :: (k0, i0) :: rest
    else if k = k0 then (k, i) :: rest
    else (k0, i0) :: mapInsert rest k i

/-- `map.upper_bound(v)->second`: value at the smallest key strictly greater
than `v` (assuming the backing list is sorted by key), `none` when
`upper_bound` is `end()`. -/
def mapUpperBound : List (ℚ × Nat) → ℚ → Option Nat
  | [], _ => none
  | (k, i) :: rest, v => if v < k then some i else mapUpperBound rest v

/-- The loop `for (i) bucketMap[buckets[i]] = i;` starting from map `m`
and index `n`. -/
def buildMapFrom (m : List (ℚ × Nat)) : List ℚ → Nat → List (ℚ × Nat)
  | [], _ => m
  | b :: rest, n => buildMapFrom (mapInsert m b n) rest (n + 1)

/-- The pairs `(buckets[i], i)` for `i = n, n+1, ...` (what `buildMapFrom`
produces on a strictly increasing bucket list). -/
def zipFrom : List ℚ → Nat → List (ℚ × Nat)
  | [], _ => []
  | b :: rest, n => (b, n) :: zipFrom rest (n + 1)

theorem mapInsert_append (m : List (ℚ × Nat)) (k : ℚ) (i : Nat)
    (h : ∀ p ∈ m, p.1 < k) : mapInsert m k i = m ++ [(k, i)] := by
  induction m with
  | nil => rfl
  | cons p rest ih =>
    obtain ⟨k0, i0⟩ := p
    have hk0 : k0 < k := h (k0, i0) (List.mem_cons_self _ _)
    have h1 : ¬ k < k0 := not_lt_of_gt hk0
    have h2 : ¬ k = k0 := fun he => absurd (he ▸ hk0) (lt_irrefl k0)
    simp only [mapInsert, if_neg h1, if_neg h2, List.cons_append,
      List.cons.injEq, true_and]
    exact ih fun p hp => h p (List.mem_cons_of_mem _ hp)

theorem buildMapFrom_sorted (bs : List ℚ) (m : List (ℚ × Nat)) (n : Nat)
    (hm : ∀ p ∈ m, ∀ b ∈ bs, p.1 < b) (hs : bs.Pairwise (· < ·)) :
    buildMapFrom m bs n = m ++ zipFrom bs n := by
  induction bs generalizing m n with
  | nil => simp [buildMapFrom, zipFrom]
  | cons b rest ih =>
    have hins : mapInsert m b n = m ++ [(b, n)] :=
      mapInsert_append m b n fun p hp => hm p hp b (List.mem_cons_self _ _)
    have hrest : ∀ p ∈ m ++ [(b, n)], ∀ c ∈ rest, p.1 < c := by
      intro p hp c hc
      rcases List.mem_append.mp hp with h | h
      · exact hm p h c (List.mem_cons_of_mem _ hc)
      · have : p = (b, n) := List.mem_singleton.mp h
        subst this
        exact (List.pairwise_cons.mp hs).1 c hc
    calc buildMapFrom m (b :: rest) n
        = buildMapFrom (m ++ [(b, n)]) rest (n + 1) := by
          simp [buildMapFrom, hins]
      _ = (m ++ [(b, n)]) ++ zipFrom rest (n + 1) :=
          ih (m ++ [(b, n)]) (n + 1) hrest (List.pairwise_cons.mp hs).2
      _ = m ++ zipFrom (b :: rest) n := by simp [zipFrom]

theorem mapUpperBound_zipFrom (bs : List ℚ) (n : Nat) (v : ℚ) (x : Nat)
    (h : mapUpperBound (zipFrom bs n) v = some x) :
    ∃ j, x = n + j ∧ j < bs.length ∧ v < bs.getD j 0 ∧
      ∀ k < j, bs.getD k 0 ≤ v := by
  induction bs generalizing n with
  | nil => simp [zipFrom, mapUpperBound] at h
  | cons b rest ih =>
    by_cases hv : v < b
    · refine ⟨0, ?_, by simp, by simpa using hv, by omega⟩
      simpa [zipFrom, mapUpperBound, hv] using h.symm
    · have h' : mapUpperBound (zipFrom rest (n + 1)) v = some x := by
        simpa [zipFrom, mapUpperBound, hv] using h
      obtain ⟨j, hx, hj, hvj, hall⟩ := ih (n + 1) h'
      refine ⟨j + 1, by omega, by simpa using Nat.succ_lt_succ hj, by simpa using hvj, ?_⟩
      intro k hk
      cases k with
      | zero => simpa using le_of_not_lt hv
      | succ k => simpa using hall k (by omega)

/-! ### `TxConfirmStats` (policyestimator.h / feetool.cpp second part)

Field-for-field embedding of the `TxConfirmStats` class.  `double` fields
are `ℚ`, `int` fields are `Int`, vectors are lists. -/

structure TxConfirmStats where
  buckets : List ℚ
  bucketMap : List (ℚ × Nat)
  txCtAvg : List ℚ
  curBlockTxCt : List Int
  confAvg : List (List ℚ)
  curBlockConf : List (List Int)
  avg : List ℚ
  curBlockVal : List ℚ
  dataTypeString : String
  decay : ℚ
  deriving Repr

/-- `TxConfirmStats::Initialize` — all tables zero-allocated, bucket map
built from the bucket upper bounds. -/
def TxConfirmStats.Initialize (defaultBuckets : List ℚ) (maxConfirms : Nat)
    (decay : ℚ) (dataTypeString : String) : TxConfirmStats where
  buckets := defaultBuckets
  bucketMap := buildMapFrom [] defaultBuckets 0
  txCtAvg := List.replicate defaultBuckets.length 0
  curBlockTxCt := List.replicate defaultBuckets.length 0
  confAvg := List.replicate maxConfirms (List.replicate defaultBuckets.length 0)
  curBlockConf := List.replicate maxConfirms (List.replicate defaultBuckets.length 0)
  avg := List.replicate defaultBuckets.length 0
  curBlockVal := List.replicate defaultBuckets.length 0
  dataTypeString := dataTypeString
  decay := decay

/-- `TxConfirmStats::ClearCurrent` — zero every `curBlock*` cell with
column index below `buckets.size()`. -/
def TxConfirmStats.ClearCurrent (s : TxConfirmStats) : TxConfirmStats :=
  { s with
    curBlockConf := s.curBlockConf.map
      (fun row => mapIdx0 (fun j x => if j < s.buckets.length then 0 else x) row)
    curBlockTxCt := mapIdx0 (fun j x => if j < s.buckets.length then 0 else x) s.curBlockTxCt
    curBlockVal := mapIdx0 (fun j x => if j < s.buckets.length then 0 else x) s.curBlockVal }

/-- `v[x]++` on an `int` vector (no-op out of range, which is UB in C++ and
never reached from the class's own states). -/
def bumpAt (l : List Int) (x : Nat) : List Int :=
  mapIdx0 (fun j c => if j = x then c + 1 else c) l

/-- `v[x] += val` on a `double` vector. -/
def addAt (l : List ℚ) (x : Nat) (val : ℚ) : List ℚ :=
  mapIdx0 (fun j c => if j = x then c + val else c) l

/-- `TxConfirmStats::Record`.  `blocksToConfirm` is 1-based; the C++
dereferences `bucketMap.upper_bound(val)` without checking for `end()`,
which is undefined for values at or above the top bucket bound; that case is
modelled as a no-op and is outside every claim. -/
def TxConfirmStats.Record (s : TxConfirmStats) (blocksToConfirm : Int) (val : ℚ) :
    TxConfirmStats :=
  if blocksToConfirm < 1 then s
  else
    match mapUpperBound s.bucketMap val with
    | none => s
    | some bucketIndex =>
      { s with
        curBlockConf := mapIdx0
          (fun y row => if blocksToConfirm.toNat - 1 ≤ y then bumpAt row bucketIndex else row)
          s.curBlockConf
        curBlockTxCt := bumpAt s.curBlockTxCt bucketIndex
        curBlockVal := addAt s.curBlockVal bucketIndex val }

/-- `TxConfirmStats::UpdateMovingAverages` —
`x ← x * decay + curBlock x` pointwise, for columns below `buckets.size()`. -/
def TxConfirmStats.UpdateMovingAverages (s : TxConfirmStats) : TxConfirmStats :=
  { s with
    confAvg := mapIdx0
      (fun i row => mapIdx0
        (fun j a => if j < s.buckets.length then
            a * s.decay + (((s.curBlockConf.getD i []).getD j 0 : Int) : ℚ)
          else a) row)
      s.confAvg
    avg := mapIdx0
      (fun j a => if j < s.buckets.length then a * s.decay + s.curBlockVal.getD j 0 else a)
      s.avg
    txCtAvg := mapIdx0
      (fun j a => if j < s.buckets.length then
          a * s.decay + ((s.curBlockTxCt.getD j 0 : Int) : ℚ)
        else a)
      s.txCtAvg }

/-- `TxConfirmStats::GetMaxConfirms` = `confAvg.size()`. -/
def TxConfirmStats.GetMaxConfirms (s : TxConfirmStats) : Nat := s.confAvg.length

/-! ### `TxConfirmStats::EstimateMedianVal` -/

/-- The mutable locals of the bucket-combining loop. -/
structure MedianState where
  nConf : ℚ
  totalNum : ℚ
  curHighBucket : Nat
  bestHighBucket : Nat
  curLowBucket : Nat
  bestLowBucket : Nat
  foundAnswer : Bool
  deriving Repr

/-- One iteration of the descending bucket loop at index `bucket`;
the returned flag is false exactly on the C++ `break`. -/
def medianStep (confY txCt : List ℚ) (threshold minSuccess : ℚ) (bucket : Nat)
    (a : MedianState) : MedianState × Bool :=
  let a := { a with
    curLowBucket := bucket
    nConf := a.nConf + confY.getD bucket 0
    totalNum := a.totalNum + txCt.getD bucket 0 }
  if threshold ≤ a.totalNum then
    if a.nConf / a.totalNum < minSuccess then (a, false)
    else
      ({ a with
          foundAnswer := true
          nConf := 0
          totalNum := 0
          bestHighBucket := a.curHighBucket
          bestLowBucket := a.curLowBucket
          -- at bucket 0 the C++ stores `(unsigned)-1` here; the value is
          -- never read again, `0` stands in for it
          curHighBucket := bucket - 1 }, true)
  else (a, true)

/-- `for (bucket = maxbucketindex; bucket >= 0; bucket--)` with `break`. -/
def medianLoop (confY txCt : List ℚ) (threshold minSuccess : ℚ) :
    Nat → MedianState → MedianState
  | 0, a => (medianStep confY txCt threshold minSuccess 0 a).1
  | b + 1, a =>
    match medianStep confY txCt threshold minSuccess (b + 1) a with
    | (a', true) => medianLoop confY txCt threshold minSuccess b a'
    | (a', false) => a'

/-- `txSum` over the best bucket window `[lo, hi]`. -/
def windowTxSum (txCt : List ℚ) (lo hi : Nat) : ℚ :=
  (((List.range' lo (hi + 1 - lo)).map (fun j => txCt.getD j 0)).foldl (· + ·) 0)

/-- The bottom-up walk locating the median bucket; `-1` when the loop runs
out (the C++ then keeps `median = -1`). -/
def medianPick (txCt avgL : List ℚ) : List Nat → ℚ → ℚ
  | [], _ => -1
  | j :: rest, txSum =>
    if txCt.getD j 0 < txSum then medianPick txCt avgL rest (txSum - txCt.getD j 0)
    else avgL.getD j 0 / txCt.getD j 0

/-- `TxConfirmStats::EstimateMedianVal`.  With no buckets the C++ loop body
never runs and the final window scan reads out of range (UB); the model
returns the untouched `-1` then. -/
def TxConfirmStats.EstimateMedianVal (s : TxConfirmStats) (confTarget : Int)
    (sufficientTxVal minSuccess : ℚ) : ℚ :=
  let maxbucketindex := s.buckets.length - 1
  let confY := s.confAvg.getD (confTarget - 1).toNat []
  let threshold := sufficientTxVal / (1 - s.decay)
  let a0 : MedianState :=
    ⟨0, 0, maxbucketindex, maxbucketindex, maxbucketindex, maxbucketindex, false⟩
  if s.buckets.length = 0 then -1
  else
    let a := medianLoop confY s.txCtAvg threshold minSuccess maxbucketindex a0
    let txSum := windowTxSum s.txCtAvg a.bestLowBucket a.bestHighBucket
    if a.foundAnswer ∧ txSum ≠ 0 then
      medianPick s.txCtAvg s.avg
        (List.range' a.bestLowBucket (a.bestHighBucket + 1 - a.bestLowBucket)) (txSum / 2)
    else -1

/-! ### Constants (policyestimator.h) -/

def MAX_BLOCK_CONFIRMS : Nat := 25

def DEFAULT_DECAY : ℚ := 998 / 1000

def MIN_SUCCESS_PCT : ℚ := 85 / 100

def SUFFICIENT_FEETXS : ℚ := 1

def SUFFICIENT_PRITXS : ℚ := 1 / 10

def MIN_PRIORITY_VAL : ℚ := 100000000

/-- `FEELIST` — the 39 default fee-bucket upper bounds. -/
def FEELIST : List ℚ :=
  [0, 1000, 1212, 1468, 1778, 2154, 2610, 3162,
   3831, 4642, 5623, 6813, 8254, 10000, 12115,
   14678, 17783, 21544, 26102, 31622, 38312, 46416,
   56234, 68129, 82540, 100000, 121153, 146780,
   177828, 215443, 261016, 316228, 383119, 464159,
   562341, 681292, 825404, 1000000, 10000000000000000]

/-- `PRILIST` — the 13 default priority-bucket upper bounds. -/
def PRILIST : List ℚ :=
  [100000, 1000000, 10000000, 100000000, 1000000000, 10000000000,
   100000000000, 1000000000000, 10000000000000, 100000000000000,
   1000000000000000, 10000000000000000, (10 : ℚ) ^ 99]

/-! ### `CBlockPolicyEstimator` (feetool.cpp second part) -/

/-- The fields of a `CTxMemPoolEntry` that `processTransaction` samples.
The entry type itself is outside the repository; `GetPriority` is a
height-indexed value. -/
structure CTxMemPoolEntry where
  wasClearAtEntry : Bool
  entryHeight : Nat
  fee : Int
  txSize : Nat
  priority : Nat → ℚ

inductive FeePriVal
  | lowVal
  | highVal
  | zeroVal
  deriving DecidableEq, Repr

/-- Modelled from the spec: `CFeeRate(fee, size).GetFeePerK()` (class
`CFeeRate` lives in `amount.h`, not under `src/`) is the fee-rate in
smallest-currency-unit per 1000 bytes: `fee * 1000 / size` with C++ integer
division, `0` for an empty transaction. -/
def feePerK (fee : Int) (txSize : Nat) : Int :=
  if 0 < txSize then Int.tdiv (fee * 1000) (txSize : Int) else 0

/-- Modelled from the spec: the global `minRelayTxFee.GetFeePerK()`
(declared in `main.h`, not under `src/`); the node default of the era,
1000 per kb.  No claim depends on its value. -/
def minRelayFeePerK : Int := 1000

/-- Reinterpret the value of an `unsigned int` subtraction as a C++ `int`
(two's complement, 32 bits): models `int blocksToConfirm = nBlockHeight -
entry.GetHeight()` where both operands are unsigned. -/
def toInt32 (n : Int) : Int :=
  let m := n % 4294967296
  if m < 2147483648 then m else m - 4294967296

structure CBlockPolicyEstimator where
  nBestSeenHeight : Nat
  feeStats : TxConfirmStats
  priStats : TxConfirmStats
  deriving Repr

/-- The `CBlockPolicyEstimator` constructor. -/
def CBlockPolicyEstimator.new : CBlockPolicyEstimator where
  nBestSeenHeight := 0
  feeStats := TxConfirmStats.Initialize FEELIST MAX_BLOCK_CONFIRMS DEFAULT_DECAY "FeeRate"
  priStats := TxConfirmStats.Initialize PRILIST MAX_BLOCK_CONFIRMS DEFAULT_DECAY "Priority"

/-- `CBlockPolicyEstimator::processTransaction`. -/
def CBlockPolicyEstimator.processTransaction (e : CBlockPolicyEstimator)
    (nBlockHeight : Nat) (entry : CTxMemPoolEntry) : CBlockPolicyEstimator :=
  if ¬ entry.wasClearAtEntry then e
  else
    let blocksToConfirm : Int := toInt32 ((nBlockHeight : Int) - (entry.entryHeight : Int))
    if blocksToConfirm ≤ 0 then e
    else
      let feeRate : Int := feePerK entry.fee entry.txSize
      let curPri : ℚ := entry.priority nBlockHeight
      let feeVal : FeePriVal :=
        if entry.fee = 0 then .zeroVal
        else if feeRate ≤ minRelayFeePerK then .lowVal
        else .highVal
      let priVal : FeePriVal :=
        if curPri < MIN_PRIORITY_VAL then .lowVal else .highVal
      if feeVal = .highVal ∧ priVal = .lowVal then
        { e with feeStats := e.feeStats.Record blocksToConfirm (feeRate : ℚ) }
      else if feeVal = .zeroVal ∨ (feeVal = .lowVal ∧ priVal = .highVal) then
        { e with priStats := e.priStats.Record blocksToConfirm curPri }
      else e

/-- `CBlockPolicyEstimator::processBlock`. -/
def CBlockPolicyEstimator.processBlock (e : CBlockPolicyEstimator)
    (nBlockHeight : Nat) (entries : List CTxMemPoolEntry) : CBlockPolicyEstimator :=
  if nBlockHeight ≤ e.nBestSeenHeight then e
  else
    let e := { e with nBestSeenHeight := nBlockHeight }
    let e := { e with feeStats := e.feeStats.ClearCurrent
                      priStats := e.priStats.ClearCurrent }
    let e := entries.foldl (fun e entry => e.processTransaction nBlockHeight entry) e
    { e with feeStats := e.feeStats.UpdateMovingAverages
             priStats := e.priStats.UpdateMovingAverages }

/-- `CBlockPolicyEstimator::estimateFee`.  Modelled from the spec on one
point: `CFeeRate` (not under `src/`) carries the returned value through, so
the result is the fee-rate number itself, `0` for `CFeeRate(0)`. -/
def CBlockPolicyEstimator.estimateFee (e : CBlockPolicyEstimator) (confTarget : Int) : ℚ :=
  if confTarget ≤ 0 ∨ e.feeStats.GetMaxConfirms < confTarget.toNat then 0
  else
    let median := e.feeStats.EstimateMedianVal confTarget SUFFICIENT_FEETXS MIN_SUCCESS_PCT
    if median < 0 then 0 else median

/-- `CBlockPolicyEstimator::estimatePriority`. -/
def CBlockPolicyEstimator.estimatePriority (e : CBlockPolicyEstimator) (confTarget : Int) : ℚ :=
  if confTarget ≤ 0 ∨ e.priStats.GetMaxConfirms < confTarget.toNat then -1
  else e.priStats.EstimateMedianVal confTarget SUFFICIENT_PRITXS MIN_SUCCESS_PCT

/-! ### Serialization (CAutoFile `<<` / `>>` as a token stream)

Every `<<` of the code appends one token; `>>` consumes one, failing on a
type mismatch.  The framework's framing of vectors (compact-size length
prefix plus elements) round-trips by construction and is folded into the
`vec`/`vecvec` tokens; an `i` token is a serialized 32-bit integer, `d` an
IEEE double, `sz` a `size_t`. -/

inductive SerItem where
  | i (n : Int)
  | d (x : ℚ)
  | sz (n : Nat)
  | vec (v : List ℚ)
  | vecvec (v : List (List ℚ))
  deriving DecidableEq, Repr

abbrev SerStream := List SerItem

def readI : SerStream → Except String (Int × SerStream)
  | .i n :: rest => .ok (n, rest)
  | _ => .error "bad stream: expected an int"

def readD : SerStream → Except String (ℚ × SerStream)
  | .d x :: rest => .ok (x, rest)
  | _ => .error "bad stream: expected a double"

def readSz : SerStream → Except String (Nat × SerStream)
  | .sz n :: rest => .ok (n, rest)
  | _ => .error "bad stream: expected a size"

def readVec : SerStream → Except String (List ℚ × SerStream)
  | .vec v :: rest => .ok (v, rest)
  | _ => .error "bad stream: expected a vector"

def readVecVec : SerStream → Except String (List (List ℚ) × SerStream)
  | .vecvec v :: rest => .ok (v, rest)
  | _ => .error "bad stream: expected a vector of vectors"

/-- `TxConfirmStats::Write` — decay, `confAvg.size()`, buckets, avg,
txCtAvg, then the `confAvg` rows one by one (no outer length). -/
def TxConfirmStats.WriteStream (s : TxConfirmStats) : SerStream :=
  .d s.decay :: .sz s.confAvg.length :: .vec s.buckets :: .vec s.avg ::
    .vec s.txCtAvg :: s.confAvg.map .vec

/-- The row-reading loop of `TxConfirmStats::Read`: `maxConfirms` vectors,
each checked against the bucket count as it is read. -/
def readConfRows (numBuckets : Nat) : Nat → SerStream →
    Except String (List (List ℚ) × SerStream)
  | 0, st => .ok ([], st)
  | n + 1, st => do
    let (row, st) ← readVec st
    if row.length ≠ numBuckets then
      throw "Corrupt estimates file. Mismatch in fee conf vector size"
    else
      let (rows, st) ← readConfRows numBuckets n st
      pure (row :: rows, st)

/-- `curBlockConf.resize(maxConfirms)` followed by resizing every row to
the bucket count (`std::vector::resize` zero-fills new cells). -/
def resizeConf (m : List (List Int)) (maxConfirms numBuckets : Nat) : List (List Int) :=
  (listResize m maxConfirms []).map (fun row => listResize row numBuckets 0)

/-- `TxConfirmStats::Read` — parse and validate into temporaries, then
commit; any violation aborts with the error and commits nothing. -/
def TxConfirmStats.ReadStream (s : TxConfirmStats) (st : SerStream) :
    Except String (TxConfirmStats × SerStream) := do
  let (fileDecay, st) ← readD st
  if fileDecay ≤ 0 ∨ 1 ≤ fileDecay then
    throw "Corrupt estimates file. Decay must be between 0 and 1 (non-inclusive)"
  let (maxConfirms, st) ← readSz st
  if maxConfirms = 0 ∨ 1008 < maxConfirms then
    throw "Corrupt estimates file.  Must maintain estimates for between 1 and 1008 (one week) confirms"
  let (fileBuckets, st) ← readVec st
  if fileBuckets.length ≤ 1 ∨ 1000 < fileBuckets.length then
    throw "Corrupt estimates file. Must have between 2 and 1000 fee buckets"
  let (fileAvg, st) ← readVec st
  if fileAvg.length ≠ fileBuckets.length then
    throw "Corrupt estimates file. Mismatch in fee average vector size"
  let (fileTxCtAvg, st) ← readVec st
  if fileTxCtAvg.length ≠ fileBuckets.length then
    throw "Corrupt estimates file. Mismatch in fee tx count vector size"
  let (fileConfAvg, st) ← readConfRows fileBuckets.length maxConfirms st
  pure ({ s with
      decay := fileDecay
      buckets := fileBuckets
      avg := fileAvg
      confAvg := fileConfAvg
      txCtAvg := fileTxCtAvg
      bucketMap := buildMapFrom [] fileBuckets 0
      curBlockConf := resizeConf s.curBlockConf maxConfirms fileBuckets.length
      curBlockTxCt := listResize s.curBlockTxCt fileBuckets.length 0
      curBlockVal := listResize s.curBlockVal fileBuckets.length 0 }, st)

/-- What the caller observes across `Read`: the committed state on success,
the untouched receiver when the exception propagates. -/
def TxConfirmStats.ReadInto (s : TxConfirmStats) (st : SerStream) : TxConfirmStats :=
  match s.ReadStream st with
  | .ok (s', _) => s'
  | .error _ => s

/-- `CBlockPolicyEstimator::Write` — best seen height, then the fee and the
priority statistics. -/
def CBlockPolicyEstimator.WriteStream (e : CBlockPolicyEstimator) : SerStream :=
  .i (e.nBestSeenHeight : Int) :: (e.feeStats.WriteStream ++ e.priStats.WriteStream)

/-- Modelled from the spec: the full estimates-file writer (the caller of
`CBlockPolicyEstimator::Write`, in `txmempool.cpp`, not under `src/`)
writes `version_required` and `version_written` first, then the estimator
state — the layout `main` in feetool.cpp reads back. -/
def writeFeeEstimatesFile (versionRequired versionWritten : Int)
    (e : CBlockPolicyEstimator) : SerStream :=
  .i versionRequired :: .i versionWritten :: e.WriteStream

/-! ### `TxConfirmStat` (feetool.cpp first part: the version-aware reader) -/

structure TxConfirmStat where
  buckets : List ℚ
  bucketMap : List (ℚ × Nat)
  txCtAvg : List ℚ
  curBlockTxCt : List Int
  confAvg : List (List ℚ)
  curBlockConf : List (List Int)
  avg : List ℚ
  curBlockVal : List ℚ
  dataTypeString : String
  decay : ℚ
  unconfTxs : List (List Int)
  oldUnconfTxs : List Int
  deriving Repr

/-- A default-constructed `TxConfirmStat` local (empty vectors; the
uninitialized `decay` double is modelled as 0 — it is overwritten before
any use on the success path and never read on the failure path). -/
def TxConfirmStat.fresh : TxConfirmStat :=
  ⟨[], [], [], [], [], [], [], [], "", 0, [], []⟩

/-- The legacy row loop of `TxConfirmStat::Read` — `maxConfirms` vectors,
no per-row check while reading (the check happens afterwards). -/
def readRows : Nat → SerStream → Except String (List (List ℚ) × SerStream)
  | 0, st => .ok ([], st)
  | n + 1, st => do
    let (row, st) ← readVec st
    let (rows, st) ← readRows n st
    pure (row :: rows, st)

/-- `TxConfirmStat::Read(filein, version)` — both on-disk layouts:
before version 100000 `maxConfirms` is stored and the `confAvg` rows follow
one by one; from 100000 on `confAvg` is one nested vector. -/
def TxConfirmStat.ReadV (s : TxConfirmStat) (version : Int) (st : SerStream) :
    Except String (TxConfirmStat × SerStream) := do
  let (fileDecay, st) ← readD st
  if fileDecay ≤ 0 ∨ 1 ≤ fileDecay then
    throw "Corrupt estimates file. Decay must be between 0 and 1 (non-inclusive)"
  let (maxConfirmsRead, st) ←
    if version < 100000 then readSz st else pure (0, st)
  let (fileBuckets, st) ← readVec st
  let numBuckets := fileBuckets.length
  if numBuckets ≤ 1 ∨ 1000 < numBuckets then
    throw "Corrupt estimates file. Must have between 2 and 1000 fee/pri buckets"
  let (fileAvg, st) ← readVec st
  if fileAvg.length ≠ numBuckets then
    throw "Corrupt estimates file. Mismatch in fee/pri average bucket count"
  let (fileTxCtAvg, st) ← readVec st
  if fileTxCtAvg.length ≠ numBuckets then
    throw "Corrupt estimates file. Mismatch in tx count bucket count"
  let (fileConfAvg, st) ←
    if version < 100000 then readRows maxConfirmsRead st else readVecVec st
  let maxConfirms := fileConfAvg.length
  if maxConfirms = 0 ∨ 1008 < maxConfirms then
    throw "Corrupt estimates file.  Must maintain estimates for between 1 and 1008 (one week) confirms"
  if fileConfAvg.any (fun row => row.length ≠ numBuckets) then
    throw "Corrupt estimates file. Mismatch in fee/pri conf average bucket count"
  pure ({ s with
      decay := fileDecay
      buckets := fileBuckets
      avg := fileAvg
      confAvg := fileConfAvg
      txCtAvg := fileTxCtAvg
      bucketMap := buildMapFrom [] fileBuckets 0
      curBlockConf := resizeConf s.curBlockConf maxConfirms numBuckets
      curBlockTxCt := listResize s.curBlockTxCt numBuckets 0
      curBlockVal := listResize s.curBlockVal numBuckets 0
      unconfTxs := resizeConf s.unconfTxs maxConfirms numBuckets
      oldUnconfTxs := listResize s.oldUnconfTxs numBuckets 0 }, st)

/-- What the caller observes across the version-aware `Read`: the
committed state on success, the untouched receiver when the exception
propagates (`main` catches it and the local instance keeps its fields). -/
def TxConfirmStat.ReadIntoV (s : TxConfirmStat) (version : Int)
    (st : SerStream) : TxConfirmStat :=
  match s.ReadV version st with
  | .ok (s', _) => s'
  | .error _ => s

/-- The pre-100000 on-disk layout of one statistics table, as
`TxConfirmStats::Write` produces it (decay, stored `maxConfirms`, buckets,
avg, txCtAvg, rows one by one). -/
def TxConfirmStat.writeLegacy (s : TxConfirmStat) : SerStream :=
  .d s.decay :: .sz s.confAvg.length :: .vec s.buckets :: .vec s.avg ::
    .vec s.txCtAvg :: s.confAvg.map .vec

/-- Modelled from the spec: the version ≥ 100000 writer (not under `src/`;
only its reader is) stores no `maxConfirms` and serializes `confAvg` as a
single length-prefixed sequence of rows. -/
def TxConfirmStat.writeModern (s : TxConfirmStat) : SerStream :=
  [.d s.decay, .vec s.buckets, .vec s.avg, .vec s.txCtAvg, .vecvec s.confAvg]

/-- `main` of feetool.cpp: versions, height, then the fee table and the
priority table, both read at `nVersionRequired`. -/
def mainRead (st : SerStream) :
    Except String ((Int × Int × Int) × TxConfirmStat × TxConfirmStat × SerStream) := do
  let (nVersionRequired, st) ← readI st
  let (nVersionThatWrote, st) ← readI st
  let (fileHeight, st) ← readI st
  let (feeStats, st) ← TxConfirmStat.fresh.ReadV nVersionRequired st
  let (priStats, st) ← TxConfirmStat.fresh.ReadV nVersionRequired st
  pure ((nVersionRequired, nVersionThatWrote, fileHeight), feeStats, priStats, st)

/-! ### `CCheckQueue` / `CCheckQueueControl` (checkqueue.h)

A predicate is opaque to the queue except for the boolean it returns, so a
check is modelled by that boolean.  The threads' interleaving is modelled by
a *schedule*: the order in which the master and the workers pop and process
the published checks — any permutation of the published batch.  `loopRun`
is the linearization of `CCheckQueue::Loop`'s evaluation step: a popped
check is evaluated only when the local `fOk` (loaded from `fAllOk`) is
still true (`fOk = fOk && (*pcheck)()` short-circuits), and a false result
is stored back into `fAllOk`. -/

/-- The `fAllOk` value after processing the scheduled checks in order,
starting from `ok`; `ok && c` evaluates `c` only when `ok` holds, exactly
like the C++ `fOk && (*pcheck[i])()`. -/
def loopRun : List Bool → Bool → Bool
  | [], ok => ok
  | c :: rest, ok => loopRun rest (ok && c)

/-- Which scheduled checks actually get invoked: position `i` is invoked
exactly when the running `fAllOk` is still true when it is popped. -/
def invokedFlags : List Bool → Bool → List Bool
  | [], _ => []
  | c :: rest, ok => ok :: invokedFlags rest (ok && c)

/-- The shared state of a `CCheckQueue` (checks as the booleans they
return).  `queue` holds the published pointers, `checkPtrs` the batched
but not yet published ones. -/
structure CheckQueue where
  queue : List Bool
  checkPtrs : List Bool
  fAllOk : Bool
  allAdded : Bool
  newBlock : Bool
  deriving DecidableEq, Repr

/-- The `CCheckQueue` constructor: `fAllOk(true), allAdded(false),
newBlock(true)`, empty storage. -/
def CheckQueue.new : CheckQueue :=
  ⟨[], [], true, false, true⟩

/-- `CCheckQueue::Add` — moves the batch into owned storage, and publishes
the pending pointers once more than 100 have accumulated. -/
def CheckQueue.Add (st : CheckQueue) (vChecks : List Bool) : CheckQueue :=
  let st := { st with newBlock := false }
  let ptrs := st.checkPtrs ++ vChecks
  if 100 < ptrs.length then { st with queue := st.queue ++ ptrs, checkPtrs := [] }
  else { st with checkPtrs := ptrs }

/-- The checks a `Wait` call will drain: the published ones plus, unless no
`Add` ran since the last reset, the still-batched ones `Wait` publishes
itself. -/
def CheckQueue.pending (st : CheckQueue) : List Bool :=
  if st.newBlock then st.queue else st.queue ++ st.checkPtrs

/-- The boolean `CCheckQueue::Wait` returns when the threads process the
pending checks in the order `schedule`. -/
def CheckQueue.WaitResult (st : CheckQueue) (schedule : List Bool) : Bool :=
  loopRun schedule st.fAllOk

/-- The queue state after `Wait` returns: storage cleared, `fAllOk` reset
to true, every `done` slot reset, `allAdded` lowered, `newBlock` re-armed. -/
def CheckQueue.afterWait : CheckQueue :=
  ⟨[], [], true, false, true⟩

/-- `CCheckQueueControl` — `pqueue` and the `fDone` latch. -/
structure CheckQueueControl where
  pqueue : Option CheckQueue
  fDone : Bool
  deriving DecidableEq, Repr

/-- The `CCheckQueueControl` constructor (`fDone(false)`). -/
def CheckQueueControl.make (pqueueIn : Option CheckQueue) : CheckQueueControl :=
  ⟨pqueueIn, false⟩

/-- `CCheckQueueControl::Wait` — with a null queue it returns true without
touching `fDone`; otherwise it forwards to the queue's `Wait` and latches
`fDone`. -/
def CheckQueueControl.WaitC (c : CheckQueueControl) (schedule : List Bool) :
    Bool × CheckQueueControl :=
  match c.pqueue with
  | none => (true, c)
  | some q => (q.WaitResult schedule, ⟨some CheckQueue.afterWait, true⟩)

/-- `CCheckQueueControl::Add`. -/
def CheckQueueControl.AddC (c : CheckQueueControl) (vChecks : List Bool) :
    CheckQueueControl :=
  match c.pqueue with
  | none => c
  | some q => ⟨some (q.Add vChecks), c.fDone⟩

/-- The `CCheckQueueControl` destructor: `if (!fDone) Wait();` — the
result is discarded. -/
def CheckQueueControl.dtor (c : CheckQueueControl) (schedule : List Bool) :
    CheckQueueControl :=
  if c.fDone then c else (c.WaitC schedule).2

/-! ### Lemmas about the check-queue model -/

theorem loopRun_false (l : List Bool) : loopRun l false = false := by
  induction l with
  | nil => rfl
  | cons c rest ih => simpa [loopRun] using ih

theorem loopRun_true_eq_all (l : List Bool) : loopRun l true = l.all id := by
  induction l with
  | nil => rfl
  | cons c rest ih =>
    cases c with
    | true => simpa [loopRun] using ih
    | false => simp [loopRun, loopRun_false]

theorem all_eq_of_perm (l l' : List Bool) (h : l.Perm l') : l.all id = l'.all id := by
  cases hl : l.all id with
  | true =>
    symm
    rw [List.all_eq_true] at hl ⊢
    intro x hx
    exact hl x (h.mem_iff.mpr hx)
  | false =>
    symm
    rw [List.all_eq_false] at hl ⊢
    obtain ⟨x, hx, hfx⟩ := hl
    exact ⟨x, h.mem_iff.mp hx, hfx⟩

theorem length_invokedFlags (l : List Bool) (ok : Bool) :
    (invokedFlags l ok).length = l.length := by
  induction l generalizing ok with
  | nil => rfl
  | cons c rest ih => simp [invokedFlags, ih]

/-- A check whose invocation flag is down was popped while the running
`fAllOk` was already false: either it was false from the start or an
earlier scheduled check returned false. -/
theorem invokedFlags_skip (l : List Bool) (ok : Bool) (i : Nat)
    (hi : i < l.length) (hf : (invokedFlags l ok).getD i true = false) :
    ok = false ∨ ∃ j, j < i ∧ l.getD j true = false := by
  induction l generalizing ok i with
  | nil => simp at hi
  | cons c rest ih =>
    cases i with
    | zero =>
      left
      simpa [invokedFlags] using hf
    | succ i =>
      have hf' : (invokedFlags rest (ok && c)).getD i true = false := by
        simpa [invokedFlags] using hf
      rcases ih (ok && c) i (by simpa using hi) hf' with hok | ⟨j, hj, hjv⟩
      · rcases Bool.and_eq_false_iff.mp hok with h | h
        · exact Or.inl h
        · exact Or.inr ⟨0, Nat.succ_pos i, by simpa using h⟩
      · exact Or.inr ⟨j + 1, by omega, by simpa using hjv⟩

/-- After folding `Add` over a batch list: published plus batched checks
are the earlier ones followed by the flattened batches, `fAllOk` is
untouched, and `newBlock` stays only if no batch was added. -/
theorem Add_spec (st : CheckQueue) (b : List Bool) :
    (st.Add b).queue ++ (st.Add b).checkPtrs = st.queue ++ st.checkPtrs ++ b
    ∧ (st.Add b).fAllOk = st.fAllOk
    ∧ (st.Add b).newBlock = false := by
  simp only [CheckQueue.Add]
  split <;> simp

theorem foldl_Add_spec (batches : List (List Bool)) (st : CheckQueue) :
    (batches.foldl CheckQueue.Add st).queue ++ (batches.foldl CheckQueue.Add st).checkPtrs
        = st.queue ++ st.checkPtrs ++ batches.flatten
    ∧ (batches.foldl CheckQueue.Add st).fAllOk = st.fAllOk
    ∧ (batches.foldl CheckQueue.Add st).newBlock = (batches.isEmpty && st.newBlock) := by
  induction batches generalizing st with
  | nil => simp
  | cons b rest ih =>
    obtain ⟨h1, h2, h3⟩ := ih (st.Add b)
    obtain ⟨a1, a2, a3⟩ := Add_spec st b
    refine ⟨?_, ?_, ?_⟩
    · rw [List.foldl_cons, h1, a1]
      simp
    · rw [List.foldl_cons, h2, a2]
    · rw [List.foldl_cons, h3, a3]
      simp

theorem pending_foldl_Add (batches : List (List Bool)) :
    (batches.foldl CheckQueue.Add CheckQueue.new).pending = batches.flatten := by
  obtain ⟨h1, _, h3⟩ := foldl_Add_spec batches CheckQueue.new
  unfold CheckQueue.pending
  cases batches with
  | nil => simp [CheckQueue.new]
  | cons b rest =>
    rw [h3]
    simpa [CheckQueue.new] using h1

/-- **C1.** For any sequence of `Add` calls followed by one `Wait` on a
fresh check queue, and any order (schedule) in which the threads pop the
submitted checks, `Wait` returns true iff every submitted predicate
returned true.  Each submitted predicate occupies exactly one schedule
slot, so it is invoked at most once (its invocation flag), and a predicate
whose flag is down was skipped only because `fAllOk` had already become
false: some earlier-scheduled predicate returned false. -/
theorem checkqueue_wait_iff_all_true (batches : List (List Bool)) (schedule : List Bool)
    (hperm : schedule.Perm ((batches.foldl CheckQueue.Add CheckQueue.new).pending)) :
    ((batches.foldl CheckQueue.Add CheckQueue.new).WaitResult schedule = true ↔
      batches.flatten.all id = true)
    ∧ (invokedFlags schedule true).length = schedule.length
    ∧ (∀ i, i < schedule.length → (invokedFlags schedule true).getD i true = false →
        ∃ j, j < i ∧ schedule.getD j true = false) := by
  have hok : (batches.foldl CheckQueue.Add CheckQueue.new).fAllOk = true :=
    (foldl_Add_spec batches CheckQueue.new).2.1
  have hsched : schedule.Perm batches.flatten := by
    rw [← pending_foldl_Add batches]; exact hperm
  refine ⟨?_, length_invokedFlags schedule true, ?_⟩
  · unfold CheckQueue.WaitResult
    rw [hok, loopRun_true_eq_all, all_eq_of_perm schedule batches.flatten hsched]
  · intro i hi hf
    rcases invokedFlags_skip schedule true i hi hf with h | h
    · exact absurd h (by simp)
    · exact h

/-- Witness for C1 at a concrete input: two `Add` batches with one failing
check; `Wait` reports false and every skip has an earlier false check. -/
theorem checkqueue_wait_iff_all_true_witness :
    (([[true, false], [true]].foldl CheckQueue.Add CheckQueue.new).WaitResult
        [true, false, true] = true ↔ [true, false, true].all id = true)
    ∧ (invokedFlags [true, false, true] true).length = 3
    ∧ (∀ i, i < 3 → (invokedFlags [true, false, true] true).getD i true = false →
        ∃ j, j < i ∧ [true, false, true].getD j true = false) := by
  have h := checkqueue_wait_iff_all_true [[true, false], [true]] [true, false, true]
    (by decide)
  simpa using h

/-- **C9.** Destroying a `CCheckQueueControl` whose `Wait` has not run yet
(`fDone = false`) runs `Wait` on its queue and discards the boolean: the
destructed state is exactly the post-`Wait` state (queue drained and
reset), and every scheduled predicate was either invoked or deliberately
skipped after an earlier predicate had already returned false. -/
theorem checkqueuecontrol_dtor_waits (c : CheckQueueControl) (q : CheckQueue)
    (schedule : List Bool) (hq : c.pqueue = some q) (hdone : c.fDone = false)
    (hok : q.fAllOk = true) :
    c.dtor schedule = ⟨some CheckQueue.afterWait, true⟩
    ∧ c.dtor schedule = (c.WaitC schedule).2
    ∧ (∀ i, i < schedule.length →
        (invokedFlags schedule q.fAllOk).getD i true = true ∨
        ∃ j, j < i ∧ schedule.getD j true = false) := by
  refine ⟨?_, ?_, ?_⟩
  · unfold CheckQueueControl.dtor CheckQueueControl.WaitC
    rw [hdone, hq]
    simp
  · unfold CheckQueueControl.dtor
    rw [hdone]
    simp
  · intro i hi
    cases hf : (invokedFlags schedule q.fAllOk).getD i true with
    | true => exact Or.inl rfl
    | false =>
      rcases invokedFlags_skip schedule q.fAllOk i hi hf with h | h
      · rw [hok] at h; exact absurd h (by simp)
      · exact Or.inr h

/-- Witness for C9: a scope holding a queue with one batched check, dropped
without `Wait`. -/
theorem checkqueuecontrol_dtor_waits_witness :
    (CheckQueueControl.make (some (CheckQueue.new.Add [true, false]))).dtor [true, false]
        = ⟨some CheckQueue.afterWait, true⟩
    ∧ (CheckQueueControl.make (some (CheckQueue.new.Add [true, false]))).dtor [true, false]
        = ((CheckQueueControl.make (some (CheckQueue.new.Add [true, false]))).WaitC
            [true, false]).2
    ∧ (∀ i, i < ([true, false] : List Bool).length →
        (invokedFlags [true, false] (CheckQueue.new.Add [true, false]).fAllOk).getD i true
            = true ∨
        ∃ j, j < i ∧ ([true, false] : List Bool).getD j true = false) := by
  exact checkqueuecontrol_dtor_waits
    (CheckQueueControl.make (some (CheckQueue.new.Add [true, false])))
    (CheckQueue.new.Add [true, false]) [true, false] rfl rfl (by decide)

/-! ### C4: reorg rejection and height monotonicity -/

theorem processTransaction_height (e : CBlockPolicyEstimator) (h : Nat)
    (entry : CTxMemPoolEntry) :
    (e.processTransaction h entry).nBestSeenHeight = e.nBestSeenHeight := by
  simp only [CBlockPolicyEstimator.processTransaction]
  repeat' split
  all_goals rfl

theorem foldl_processTransaction_height (entries : List CTxMemPoolEntry)
    (e : CBlockPolicyEstimator) (h : Nat) :
    ((entries.foldl (fun e entry => e.processTransaction h entry) e).nBestSeenHeight)
      = e.nBestSeenHeight := by
  induction entries generalizing e with
  | nil => rfl
  | cons en rest ih => rw [List.foldl_cons, ih, processTransaction_height]

/-- **C4.** `processBlock` at a height not above `nBestSeenHeight` leaves
the whole estimator (height and both statistics tables) unchanged, for any
entry list; and `nBestSeenHeight` never decreases across a `processBlock`
call. -/
theorem processBlock_reorg_frame (e : CBlockPolicyEstimator) (nBlockHeight : Nat)
    (entries : List CTxMemPoolEntry) :
    (nBlockHeight ≤ e.nBestSeenHeight → e.processBlock nBlockHeight entries = e)
    ∧ e.nBestSeenHeight ≤ (e.processBlock nBlockHeight entries).nBestSeenHeight := by
  constructor
  · intro hle
    unfold CBlockPolicyEstimator.processBlock
    rw [if_pos hle]
  · by_cases hle : nBlockHeight ≤ e.nBestSeenHeight
    · unfold CBlockPolicyEstimator.processBlock
      rw [if_pos hle]
    · unfold CBlockPolicyEstimator.processBlock
      rw [if_neg hle]
      simp only
      rw [foldl_processTransaction_height]
      exact Nat.le_of_lt (Nat.lt_of_not_le hle)

/-- Witness for C4 (its statement quantifies only over data, but
instantiate it anyway at height 1000 replayed on an estimator that has
already seen height 1000). -/
theorem processBlock_reorg_frame_witness :
    (1000 ≤ ({ CBlockPolicyEstimator.new with nBestSeenHeight := 1000 } :
        CBlockPolicyEstimator).nBestSeenHeight →
      ({ CBlockPolicyEstimator.new with nBestSeenHeight := 1000 } :
        CBlockPolicyEstimator).processBlock 1000 []
        = { CBlockPolicyEstimator.new with nBestSeenHeight := 1000 })
    ∧ ({ CBlockPolicyEstimator.new with nBestSeenHeight := 1000 } :
        CBlockPolicyEstimator).nBestSeenHeight ≤
      (({ CBlockPolicyEstimator.new with nBestSeenHeight := 1000 } :
        CBlockPolicyEstimator).processBlock 1000 []).nBestSeenHeight :=
  processBlock_reorg_frame
    { CBlockPolicyEstimator.new with nBestSeenHeight := 1000 } 1000 []

/-! ### C5: estimateFee / estimatePriority failure shape -/

theorem getD_replicate_self (n i : Nat) (a : α) :
    (List.replicate n a).getD i a = a := by
  by_cases h : i < n
  · rw [List.getD_eq_getElem _ _ (by simpa using h)]
    simp
  · rw [List.getD_eq_default _ _ (by simpa using Nat.le_of_not_lt h)]

theorem medianStep_no_data (confY txCt : List ℚ) (threshold minSuccess : ℚ)
    (bucket : Nat) (a : MedianState) (hthr : 0 < threshold)
    (hz : txCt.getD bucket 0 = 0) (ht : a.totalNum = 0) :
    medianStep confY txCt threshold minSuccess bucket a =
      ({ a with
          curLowBucket := bucket
          nConf := a.nConf + confY.getD bucket 0
          totalNum := 0 }, true) := by
  unfold medianStep
  simp only [hz, ht, add_zero]
  rw [if_neg (by linarith)]

theorem medianLoop_no_data (confY txCt : List ℚ) (threshold minSuccess : ℚ)
    (hthr : 0 < threshold) (hz : ∀ j, txCt.getD j 0 = 0) (b : Nat) :
    ∀ a : MedianState, a.totalNum = 0 →
      (medianLoop confY txCt threshold minSuccess b a).foundAnswer = a.foundAnswer := by
  induction b with
  | zero =>
    intro a ht
    unfold medianLoop
    rw [medianStep_no_data confY txCt threshold minSuccess 0 a hthr (hz 0) ht]
  | succ b ih =>
    intro a ht
    unfold medianLoop
    rw [medianStep_no_data confY txCt threshold minSuccess (b + 1) a hthr (hz (b + 1)) ht]
    exact ih _ rfl

/-- With no recorded transactions (an all-zero `txCtAvg`) and a positive
sample threshold, `EstimateMedianVal` never finds a window and returns the
`-1` sentinel. -/
theorem EstimateMedianVal_no_data (s : TxConfirmStats) (t : Int)
    (sufficientTxVal minSuccess : ℚ) (hz : ∀ j, s.txCtAvg.getD j 0 = 0)
    (hthr : 0 < sufficientTxVal / (1 - s.decay)) :
    s.EstimateMedianVal t sufficientTxVal minSuccess = -1 := by
  unfold TxConfirmStats.EstimateMedianVal
  by_cases hb : s.buckets.length = 0
  · simp [hb]
  · rw [if_neg hb]
    have hf := medianLoop_no_data (s.confAvg.getD (t - 1).toNat [])
      s.txCtAvg (sufficientTxVal / (1 - s.decay)) minSuccess hthr hz
      (s.buckets.length - 1)
      ⟨0, 0, s.buckets.length - 1, s.buckets.length - 1, s.buckets.length - 1,
        s.buckets.length - 1, false⟩ rfl
    simp only [hf]
    simp

/-- **C5.** `estimateFee` returns 0 when the target is out of range or the
median estimate is negative, and the median otherwise; `estimatePriority`
has the same shape with sentinel `-1` for an out-of-range target and the
raw median (whose own failure sentinel is `-1`) otherwise; on a fresh
estimator `estimate_fee(5) = 0` and `estimate_priority(5) = -1`. -/
theorem estimateFee_estimatePriority_spec :
    (∀ (e : CBlockPolicyEstimator) (t : Int),
        t ≤ 0 ∨ e.feeStats.GetMaxConfirms < t.toNat → e.estimateFee t = 0)
    ∧ (∀ (e : CBlockPolicyEstimator) (t : Int),
        ¬(t ≤ 0 ∨ e.feeStats.GetMaxConfirms < t.toNat) →
        e.feeStats.EstimateMedianVal t SUFFICIENT_FEETXS MIN_SUCCESS_PCT < 0 →
        e.estimateFee t = 0)
    ∧ (∀ (e : CBlockPolicyEstimator) (t : Int),
        ¬(t ≤ 0 ∨ e.feeStats.GetMaxConfirms < t.toNat) →
        ¬(e.feeStats.EstimateMedianVal t SUFFICIENT_FEETXS MIN_SUCCESS_PCT < 0) →
        e.estimateFee t
          = e.feeStats.EstimateMedianVal t SUFFICIENT_FEETXS MIN_SUCCESS_PCT)
    ∧ (∀ (e : CBlockPolicyEstimator) (t : Int),
        t ≤ 0 ∨ e.priStats.GetMaxConfirms < t.toNat → e.estimatePriority t = -1)
    ∧ (∀ (e : CBlockPolicyEstimator) (t : Int),
        ¬(t ≤ 0 ∨ e.priStats.GetMaxConfirms < t.toNat) →
        e.estimatePriority t
          = e.priStats.EstimateMedianVal t SUFFICIENT_PRITXS MIN_SUCCESS_PCT)
    ∧ CBlockPolicyEstimator.new.estimateFee 5 = 0
    ∧ CBlockPolicyEstimator.new.estimatePriority 5 = -1 := by
  have hfreshFee : ∀ j, CBlockPolicyEstimator.new.feeStats.txCtAvg.getD j 0 = 0 := by
    intro j
    show (List.replicate FEELIST.length (0 : ℚ)).getD j 0 = 0
    exact getD_replicate_self _ j 0
  have hfreshPri : ∀ j, CBlockPolicyEstimator.new.priStats.txCtAvg.getD j 0 = 0 := by
    intro j
    show (List.replicate PRILIST.length (0 : ℚ)).getD j 0 = 0
    exact getD_replicate_self _ j 0
  have hmedFee : CBlockPolicyEstimator.new.feeStats.EstimateMedianVal 5
      SUFFICIENT_FEETXS MIN_SUCCESS_PCT = -1 := by
    apply EstimateMedianVal_no_data _ _ _ _ hfreshFee
    norm_num [CBlockPolicyEstimator.new, TxConfirmStats.Initialize,
      SUFFICIENT_FEETXS, DEFAULT_DECAY]
  have hmedPri : CBlockPolicyEstimator.new.priStats.EstimateMedianVal 5
      SUFFICIENT_PRITXS MIN_SUCCESS_PCT = -1 := by
    apply EstimateMedianVal_no_data _ _ _ _ hfreshPri
    norm_num [CBlockPolicyEstimator.new, TxConfirmStats.Initialize,
      SUFFICIENT_PRITXS, DEFAULT_DECAY]
  refine ⟨?_, ?_, ?_, ?_, ?_, ?_, ?_⟩
  · intro e t hguard
    unfold CBlockPolicyEstimator.estimateFee
    rw [if_pos hguard]
  · intro e t hguard hneg
    unfold CBlockPolicyEstimator.estimateFee
    rw [if_neg hguard]
    simp only [if_pos hneg]
  · intro e t hguard hneg
    unfold CBlockPolicyEstimator.estimateFee
    rw [if_neg hguard]
    simp only [if_neg hneg]
  · intro e t hguard
    unfold CBlockPolicyEstimator.estimatePriority
    rw [if_pos hguard]
  · intro e t hguard
    unfold CBlockPolicyEstimator.estimatePriority
    rw [if_neg hguard]
  · unfold CBlockPolicyEstimator.estimateFee
    rw [if_neg ?hguardf]
    case hguardf =>
      push_neg
      refine ⟨by norm_num, ?_⟩
      show (25 : Nat) ≥ _
      norm_num [CBlockPolicyEstimator.new, TxConfirmStats.Initialize,
        TxConfirmStats.GetMaxConfirms, MAX_BLOCK_CONFIRMS]
    rw [hmedFee]
    norm_num
  · unfold CBlockPolicyEstimator.estimatePriority
    rw [if_neg ?hguardp]
    case hguardp =>
      push_neg
      refine ⟨by norm_num, ?_⟩
      show (25 : Nat) ≥ _
      norm_num [CBlockPolicyEstimator.new, TxConfirmStats.Initialize,
        TxConfirmStats.GetMaxConfirms, MAX_BLOCK_CONFIRMS]
    exact hmedPri

/-! ### C3 / C10: the `Record` update -/

theorem length_bumpAt (l : List Int) (x : Nat) : (bumpAt l x).length = l.length :=
  length_mapIdx0 _ l

theorem length_addAt (l : List ℚ) (x : Nat) (v : ℚ) :
    (addAt l x v).length = l.length := length_mapIdx0 _ l

theorem getD_bumpAt (l : List Int) (x j : Nat) :
    (bumpAt l x).getD j 0 = if j < l.length ∧ j = x then l.getD j 0 + 1 else l.getD j 0 := by
  by_cases h : j < l.length
  · rw [bumpAt, getD_mapIdx0_lt _ _ _ h 0 0]
    by_cases hx : j = x
    · subst hx
      simp [h]
    · simp [h, hx]
  · rw [bumpAt, getD_mapIdx0_ge _ _ _ (Nat.le_of_not_lt h),
      List.getD_eq_default _ _ (Nat.le_of_not_lt h)]
    simp [h]

theorem getD_addAt (l : List ℚ) (x j : Nat) (v : ℚ) :
    (addAt l x v).getD j 0
      = if j < l.length ∧ j = x then l.getD j 0 + v else l.getD j 0 := by
  by_cases h : j < l.length
  · rw [addAt, getD_mapIdx0_lt _ _ _ h 0 0]
    by_cases hx : j = x
    · subst hx
      simp [h]
    · simp [h, hx]
  · rw [addAt, getD_mapIdx0_ge _ _ _ (Nat.le_of_not_lt h),
      List.getD_eq_default _ _ (Nat.le_of_not_lt h)]
    simp [h]

/-- `Record` past its guard, with a found bucket, is exactly the three
`curBlock*` updates. -/
theorem Record_eq (s : TxConfirmStats) (b : Int) (v : ℚ) (x : Nat)
    (hb : 1 ≤ b) (hx : mapUpperBound s.bucketMap v = some x) :
    s.Record b v = { s with
      curBlockConf := mapIdx0
        (fun y row => if b.toNat - 1 ≤ y then bumpAt row x else row) s.curBlockConf
      curBlockTxCt := bumpAt s.curBlockTxCt x
      curBlockVal := addAt s.curBlockVal x v } := by
  unfold TxConfirmStats.Record
  rw [if_neg (by omega), hx]

/-- The smallest-index reading of the bucket map built from strictly
increasing bucket bounds. -/
theorem mapUpperBound_buckets (bs : List ℚ) (v : ℚ) (x : Nat)
    (hsort : bs.Pairwise (· < ·))
    (hx : mapUpperBound (buildMapFrom [] bs 0) v = some x) :
    x < bs.length ∧ v < bs.getD x 0 ∧ ∀ j, j < x → bs.getD j 0 ≤ v := by
  rw [buildMapFrom_sorted bs [] 0 (by simp) hsort] at hx
  obtain ⟨j, hj0, hj1, hj2, hj3⟩ := mapUpperBound_zipFrom bs 0 v x (by simpa using hx)
  have : x = j := by omega
  subst this
  exact ⟨hj1, hj2, fun k hk => hj3 k hk⟩

/-- **C3.** `Record(blocksToConfirm, v)` with `blocksToConfirm ≥ 1` and `v`
below the top bucket bound buckets into the smallest index whose upper
bound strictly exceeds `v` (with the default fee buckets, `v = 10000` goes
to the `12115` bucket at index 14, not the `10000` bucket at index 13),
adds 1 to `curBlockConf[y][x]` exactly for `y` from `blocksToConfirm - 1`
to `maxConfirms - 1`, adds 1 to `curBlockTxCt[x]`, and adds `v` to
`curBlockVal[x]`, touching nothing else. -/
theorem Record_spec (s : TxConfirmStats) (b : Int) (v : ℚ) (x : Nat)
    (hmap : s.bucketMap = buildMapFrom [] s.buckets 0)
    (hsort : s.buckets.Pairwise (· < ·))
    (hb : 1 ≤ b)
    (hx : mapUpperBound s.bucketMap v = some x)
    (hrows : ∀ y, y < s.curBlockConf.length →
      (s.curBlockConf.getD y []).length = s.buckets.length)
    (hct : s.curBlockTxCt.length = s.buckets.length)
    (hval : s.curBlockVal.length = s.buckets.length) :
    (x < s.buckets.length ∧ v < s.buckets.getD x 0
      ∧ ∀ j, j < x → s.buckets.getD j 0 ≤ v)
    ∧ (∀ y, y < s.curBlockConf.length → b.toNat - 1 ≤ y →
        ((s.Record b v).curBlockConf.getD y []).getD x 0
          = (s.curBlockConf.getD y []).getD x 0 + 1)
    ∧ (∀ y, y < b.toNat - 1 →
        (s.Record b v).curBlockConf.getD y [] = s.curBlockConf.getD y [])
    ∧ (∀ y j, j ≠ x →
        ((s.Record b v).curBlockConf.getD y []).getD j 0
          = (s.curBlockConf.getD y []).getD j 0)
    ∧ ((s.Record b v).curBlockTxCt.getD x 0 = s.curBlockTxCt.getD x 0 + 1
        ∧ ∀ j, j ≠ x →
          (s.Record b v).curBlockTxCt.getD j 0 = s.curBlockTxCt.getD j 0)
    ∧ ((s.Record b v).curBlockVal.getD x 0 = s.curBlockVal.getD x 0 + v
        ∧ ∀ j, j ≠ x →
          (s.Record b v).curBlockVal.getD j 0 = s.curBlockVal.getD j 0)
    ∧ ((s.Record b v).buckets = s.buckets ∧ (s.Record b v).confAvg = s.confAvg
        ∧ (s.Record b v).txCtAvg = s.txCtAvg ∧ (s.Record b v).avg = s.avg)
    ∧ (mapUpperBound (buildMapFrom [] FEELIST 0) 10000 = some 14
        ∧ FEELIST.getD 14 0 = 12115 ∧ FEELIST.getD 13 0 = 10000) := by
  have hA := mapUpperBound_buckets s.buckets v x hsort (hmap ▸ hx)
  have hxlen : x < s.buckets.length := hA.1
  rw [Record_eq s b v x hb hx]
  refine ⟨hA, ?_, ?_, ?_, ⟨?_, ?_⟩, ⟨?_, ?_⟩, ⟨rfl, rfl, rfl, rfl⟩, ?_, ?_, ?_⟩
  · intro y hy hyb
    show ((mapIdx0 _ s.curBlockConf).getD y []).getD x 0 = _
    rw [getD_mapIdx0_lt _ _ _ hy [] [], if_pos hyb, getD_bumpAt]
    rw [if_pos ⟨by rw [hrows y hy]; exact hxlen, rfl⟩]
  · intro y hyb
    show (mapIdx0 _ s.curBlockConf).getD y [] = _
    by_cases hy : y < s.curBlockConf.length
    · rw [getD_mapIdx0_lt _ _ _ hy [] [], if_neg (by omega)]
    · rw [getD_mapIdx0_ge _ _ _ (Nat.le_of_not_lt hy),
        List.getD_eq_default _ _ (Nat.le_of_not_lt hy)]
  · intro y j hj
    show ((mapIdx0 _ s.curBlockConf).getD y []).getD j 0 = _
    by_cases hy : y < s.curBlockConf.length
    · rw [getD_mapIdx0_lt _ _ _ hy [] []]
      by_cases hyb : b.toNat - 1 ≤ y
      · rw [if_pos hyb, getD_bumpAt, if_neg (by simp [hj])]
      · rw [if_neg hyb]
    · rw [getD_mapIdx0_ge _ _ _ (Nat.le_of_not_lt hy),
        List.getD_eq_default _ _ (Nat.le_of_not_lt hy)]
  · show (bumpAt s.curBlockTxCt x).getD x 0 = _
    rw [getD_bumpAt, if_pos ⟨by rw [hct]; exact hxlen, rfl⟩]
  · intro j hj
    show (bumpAt s.curBlockTxCt x).getD j 0 = _
    rw [getD_bumpAt, if_neg (by simp [hj])]
  · show (addAt s.curBlockVal x v).getD x 0 = _
    rw [getD_addAt, if_pos ⟨by rw [hval]; exact hxlen, rfl⟩]
  · intro j hj
    show (addAt s.curBlockVal x v).getD j 0 = _
    rw [getD_addAt, if_neg (by simp [hj])]
  · decide
  · decide
  · decide

/-- Witness for C3: the default fee table, a transaction of fee-rate 10000
confirmed in 3 blocks — it lands in bucket 14 (bound 12115, not the 10000
bucket 13) and bumps that bucket's tx count. -/
theorem Record_spec_witness :
    ((10000 : ℚ) < FEELIST.getD 14 0 ∧ FEELIST.getD 13 0 ≤ 10000)
    ∧ ((TxConfirmStats.Initialize FEELIST 25 DEFAULT_DECAY "FeeRate").Record
          3 10000).curBlockTxCt.getD 14 0
        = (TxConfirmStats.Initialize FEELIST 25 DEFAULT_DECAY
            "FeeRate").curBlockTxCt.getD 14 0 + 1
    ∧ (((TxConfirmStats.Initialize FEELIST 25 DEFAULT_DECAY "FeeRate").Record
          3 10000).curBlockConf.getD 2 []).getD 14 0
        = (((TxConfirmStats.Initialize FEELIST 25 DEFAULT_DECAY
            "FeeRate").curBlockConf.getD 2 []).getD 14 0) + 1
    ∧ FEELIST.getD 14 0 = 12115 := by
  have h := Record_spec (TxConfirmStats.Initialize FEELIST 25 DEFAULT_DECAY "FeeRate")
    3 10000 14 rfl (by decide) (by decide) (by decide)
    (by
      intro y hy
      show ((List.replicate 25 (List.replicate FEELIST.length (0 : Int))).getD
          y []).length = FEELIST.length
      rw [List.getD_eq_getElem _ _ (by simpa using hy), List.getElem_replicate,
        List.length_replicate])
    (by decide) (by decide)
  refine ⟨⟨h.1.2.1, h.1.2.2 13 (by decide)⟩, h.2.2.2.2.1.1, ?_, h.2.2.2.2.2.2.2.2.1⟩
  exact h.2.1 2 (by decide) (by decide)

theorem mapIdxFrom_id_of (f : Nat → α → α) (n : Nat) (l : List α)
    (h : ∀ i, n ≤ i → i < n + l.length → ∀ a, f i a = a) :
    mapIdxFrom f n l = l := by
  induction l generalizing n with
  | nil => rfl
  | cons a as ih =>
    have h0 : f n a = a := h n (Nat.le_refl n) (by simp) a
    rw [mapIdxFrom, h0, ih (n + 1) (fun i hi1 hi2 b => h i (by omega) (by simp; omega) b)]

/-- **C10.** `Record` with `blocksToConfirm` strictly beyond the tracked
confirmation depth counts the transaction in its bucket's totals (tx count
and summed value) but in none of the per-depth confirmation counters:
`curBlockConf` is untouched. -/
theorem Record_beyond_max_spec (s : TxConfirmStats) (b : Int) (v : ℚ) (x : Nat)
    (hmap : s.bucketMap = buildMapFrom [] s.buckets 0)
    (hsort : s.buckets.Pairwise (· < ·))
    (hb : (s.GetMaxConfirms : Int) < b)
    (hlen : s.curBlockConf.length = s.GetMaxConfirms)
    (hx : mapUpperBound s.bucketMap v = some x)
    (hct : s.curBlockTxCt.length = s.buckets.length)
    (hval : s.curBlockVal.length = s.buckets.length) :
    (s.Record b v).curBlockConf = s.curBlockConf
    ∧ ((s.Record b v).curBlockTxCt.getD x 0 = s.curBlockTxCt.getD x 0 + 1
        ∧ ∀ j, j ≠ x →
          (s.Record b v).curBlockTxCt.getD j 0 = s.curBlockTxCt.getD j 0)
    ∧ ((s.Record b v).curBlockVal.getD x 0 = s.curBlockVal.getD x 0 + v
        ∧ ∀ j, j ≠ x →
          (s.Record b v).curBlockVal.getD j 0 = s.curBlockVal.getD j 0) := by
  have hxlen : x < s.buckets.length :=
    (mapUpperBound_buckets s.buckets v x hsort (hmap ▸ hx)).1
  have hb1 : 1 ≤ b := by
    have : (0 : Int) ≤ (s.GetMaxConfirms : Int) := Int.ofNat_nonneg _
    omega
  rw [Record_eq s b v x hb1 hx]
  refine ⟨?_, ⟨?_, ?_⟩, ?_, ?_⟩
  · show mapIdx0 _ s.curBlockConf = s.curBlockConf
    apply mapIdxFrom_id_of
    intro i hi0 hi1 row
    rw [if_neg]
    omega
  · show (bumpAt s.curBlockTxCt x).getD x 0 = _
    rw [getD_bumpAt, if_pos ⟨by rw [hct]; exact hxlen, rfl⟩]
  · intro j hj
    show (bumpAt s.curBlockTxCt x).getD j 0 = _
    rw [getD_bumpAt, if_neg (by simp [hj])]
  · show (addAt s.curBlockVal x v).getD x 0 = _
    rw [getD_addAt, if_pos ⟨by rw [hval]; exact hxlen, rfl⟩]
  · intro j hj
    show (addAt s.curBlockVal x v).getD j 0 = _
    rw [getD_addAt, if_neg (by simp [hj])]

/-- Witness for C10: fee-rate 10000 confirmed only after 26 blocks with 25
tracked depths — totals bumped, confirmation grid untouched. -/
theorem Record_beyond_max_spec_witness :
    ((TxConfirmStats.Initialize FEELIST 25 DEFAULT_DECAY "FeeRate").Record
        26 10000).curBlockConf
      = (TxConfirmStats.Initialize FEELIST 25 DEFAULT_DECAY "FeeRate").curBlockConf
    ∧ ((TxConfirmStats.Initialize FEELIST 25 DEFAULT_DECAY "FeeRate").Record
          26 10000).curBlockTxCt.getD 14 0
        = (TxConfirmStats.Initialize FEELIST 25 DEFAULT_DECAY
            "FeeRate").curBlockTxCt.getD 14 0 + 1 := by
  have h := Record_beyond_max_spec
    (TxConfirmStats.Initialize FEELIST 25 DEFAULT_DECAY "FeeRate") 26 10000 14
    rfl (by decide) (by decide) (by decide) (by decide) (by decide) (by decide)
  exact ⟨h.1, h.2.1.1⟩

/-! ### C2: non-negativity and monotonicity of `confAvg` -/

/-- Entry `m[y][x]` of a rational table, 0 out of range. -/
def getCQ (m : List (List ℚ)) (y x : Nat) : ℚ := (m.getD y []).getD x 0

/-- Entry `m[y][x]` of an integer table, 0 out of range. -/
def getCI (m : List (List Int)) (y x : Nat) : Int := (m.getD y []).getD x 0

/-- The inductive invariant tying `confAvg` and `curBlockConf` together:
rectangular shapes, non-negative entries, and rows non-decreasing in the
confirmation depth `y`. -/
structure StatsInv (s : TxConfirmStats) : Prop where
  decay_nonneg : 0 ≤ s.decay
  confRows : ∀ y, y < s.confAvg.length →
    (s.confAvg.getD y []).length = s.buckets.length
  curRows : ∀ y, y < s.curBlockConf.length →
    (s.curBlockConf.getD y []).length = s.buckets.length
  len_eq : s.curBlockConf.length = s.confAvg.length
  conf_nonneg : ∀ y x, 0 ≤ getCQ s.confAvg y x
  cur_nonneg : ∀ y x, 0 ≤ getCI s.curBlockConf y x
  conf_mono : ∀ y x, y + 1 < s.confAvg.length →
    getCQ s.confAvg y x ≤ getCQ s.confAvg (y + 1) x
  cur_mono : ∀ y x, y + 1 < s.curBlockConf.length →
    getCI s.curBlockConf y x ≤ getCI s.curBlockConf (y + 1) x

theorem getD_map_rows {α : Type} (g : List α → List α) (hg : g [] = [])
    (m : List (List α)) (y : Nat) : (m.map g).getD y [] = g (m.getD y []) := by
  by_cases hy : y < m.length
  · rw [List.getD_eq_getElem _ _ (by simpa using hy), List.getD_eq_getElem _ _ hy,
      List.getElem_map]
  · rw [List.getD_eq_default _ _ (by simpa using Nat.le_of_not_lt hy),
      List.getD_eq_default _ _ (Nat.le_of_not_lt hy), hg]

theorem getD_row_replicate {a : Type} [Inhabited a] (n k : Nat) (y : Nat)
    (z : a) : (List.replicate n (List.replicate k z)).getD y []
      = if y < n then List.replicate k z else [] := by
  by_cases hy : y < n
  · rw [if_pos hy, List.getD_eq_getElem _ _ (by simpa using hy),
      List.getElem_replicate]
  · rw [if_neg hy, List.getD_eq_default _ _ (by simpa using Nat.le_of_not_lt hy)]

theorem getCQ_replicate_zero (n k y x : Nat) :
    getCQ (List.replicate n (List.replicate k 0)) y x = 0 := by
  unfold getCQ
  rw [getD_row_replicate]
  by_cases hy : y < n
  · rw [if_pos hy]
    exact getD_replicate_self k x 0
  · rw [if_neg hy]
    simp

theorem getCI_replicate_zero (n k y x : Nat) :
    getCI (List.replicate n (List.replicate k 0)) y x = 0 := by
  unfold getCI
  rw [getD_row_replicate]
  by_cases hy : y < n
  · rw [if_pos hy]
    exact getD_replicate_self k x 0
  · rw [if_neg hy]
    simp

theorem inv_Initialize (bs : List ℚ) (mc : Nat) (decay : ℚ) (lbl : String)
    (hd : 0 ≤ decay) : StatsInv (TxConfirmStats.Initialize bs mc decay lbl) := by
  refine ⟨hd, ?_, ?_, by simp [TxConfirmStats.Initialize], ?_, ?_, ?_, ?_⟩
  · intro y hy
    have hy' : y < mc := by
      simpa [TxConfirmStats.Initialize] using hy
    show ((List.replicate mc (List.replicate bs.length (0 : ℚ))).getD y []).length
      = bs.length
    rw [getD_row_replicate, if_pos hy', List.length_replicate]
  · intro y hy
    have hy' : y < mc := by
      simpa [TxConfirmStats.Initialize] using hy
    show ((List.replicate mc (List.replicate bs.length (0 : Int))).getD y []).length
      = bs.length
    rw [getD_row_replicate, if_pos hy', List.length_replicate]
  · intro y x
    rw [show (TxConfirmStats.Initialize bs mc decay lbl).confAvg
        = List.replicate mc (List.replicate bs.length 0) from rfl,
      getCQ_replicate_zero]
  · intro y x
    rw [show (TxConfirmStats.Initialize bs mc decay lbl).curBlockConf
        = List.replicate mc (List.replicate bs.length 0) from rfl,
      getCI_replicate_zero]
  · intro y x _
    rw [show (TxConfirmStats.Initialize bs mc decay lbl).confAvg
        = List.replicate mc (List.replicate bs.length 0) from rfl,
      getCQ_replicate_zero, getCQ_replicate_zero]
  · intro y x _
    rw [show (TxConfirmStats.Initialize bs mc decay lbl).curBlockConf
        = List.replicate mc (List.replicate bs.length 0) from rfl,
      getCI_replicate_zero, getCI_replicate_zero]

theorem inv_ClearCurrent (s : TxConfirmStats) (h : StatsInv s) :
    StatsInv s.ClearCurrent := by
  have hrow : ∀ y, s.ClearCurrent.curBlockConf.getD y []
      = mapIdx0 (fun j x => if j < s.buckets.length then 0 else x)
          (s.curBlockConf.getD y []) :=
    fun y => getD_map_rows _ rfl s.curBlockConf y
  refine ⟨h.decay_nonneg, h.confRows, ?_, ?_, h.conf_nonneg, ?_, h.conf_mono, ?_⟩
  · intro y hy
    have hy' : y < s.curBlockConf.length := by
      simpa [TxConfirmStats.ClearCurrent] using hy
    rw [hrow y, length_mapIdx0]
    exact h.curRows y hy'
  · simp [TxConfirmStats.ClearCurrent, h.len_eq]
  · intro y x
    unfold getCI
    rw [hrow y]
    by_cases hx : x < (s.curBlockConf.getD y []).length
    · simp only [getD_mapIdx0_lt _ _ _ hx (0 : Int) (0 : Int)]
      by_cases hk : x < s.buckets.length
      · rw [if_pos hk]
      · rw [if_neg hk]
        exact h.cur_nonneg y x
    · rw [getD_mapIdx0_ge _ _ _ (Nat.le_of_not_lt hx)]
  · intro y x hy1
    have hy1' : y + 1 < s.curBlockConf.length := by
      simpa [TxConfirmStats.ClearCurrent] using hy1
    have hy' : y < s.curBlockConf.length := by omega
    have hl : (s.curBlockConf.getD y []).length = s.buckets.length :=
      h.curRows y hy'
    have hl1 : (s.curBlockConf.getD (y + 1) []).length = s.buckets.length :=
      h.curRows (y + 1) hy1'
    unfold getCI
    rw [hrow y, hrow (y + 1)]
    by_cases hk : x < s.buckets.length
    · have hx : x < (s.curBlockConf.getD y []).length := by omega
      have hx1 : x < (s.curBlockConf.getD (y + 1) []).length := by omega
      simp only [getD_mapIdx0_lt _ _ _ hx (0 : Int) (0 : Int),
        getD_mapIdx0_lt _ _ _ hx1 (0 : Int) (0 : Int), if_pos hk]
      exact le_refl 0
    · have hx : ¬ x < (s.curBlockConf.getD y []).length := by omega
      have hx1 : ¬ x < (s.curBlockConf.getD (y + 1) []).length := by omega
      rw [getD_mapIdx0_ge _ _ _ (Nat.le_of_not_lt hx),
        getD_mapIdx0_ge _ _ _ (Nat.le_of_not_lt hx1)]

theorem inv_Record (s : TxConfirmStats) (b : Int) (v : ℚ) (h : StatsInv s) :
    StatsInv (s.Record b v) := by
  by_cases hb : b < 1
  · unfold TxConfirmStats.Record
    rw [if_pos hb]
    exact h
  · cases hx : mapUpperBound s.bucketMap v with
    | none =>
      unfold TxConfirmStats.Record
      rw [if_neg hb, hx]
      exact h
    | some xb =>
      rw [Record_eq s b v xb (by omega) hx]
      have hentry : ∀ y x, y < s.curBlockConf.length →
          getCI (mapIdx0
            (fun y row => if b.toNat - 1 ≤ y then bumpAt row xb else row)
            s.curBlockConf) y x
          = if b.toNat - 1 ≤ y ∧ x < (s.curBlockConf.getD y []).length ∧ x = xb
            then getCI s.curBlockConf y x + 1 else getCI s.curBlockConf y x := by
        intro y x hy
        unfold getCI
        simp only [getD_mapIdx0_lt _ s.curBlockConf y hy
          ([] : List Int) ([] : List Int)]
        by_cases hcond : b.toNat - 1 ≤ y
        · rw [if_pos hcond, getD_bumpAt]
          by_cases h2 : x < (s.curBlockConf.getD y []).length ∧ x = xb
          · rw [if_pos h2, if_pos ⟨hcond, h2.1, h2.2⟩]
          · rw [if_neg h2, if_neg (by tauto)]
        · rw [if_neg hcond, if_neg (by tauto)]
      have hout : ∀ y x, ¬ y < s.curBlockConf.length →
          getCI (mapIdx0
            (fun y row => if b.toNat - 1 ≤ y then bumpAt row xb else row)
            s.curBlockConf) y x = 0 ∧ getCI s.curBlockConf y x = 0 := by
        intro y x hy
        unfold getCI
        rw [getD_mapIdx0_ge _ _ _ (Nat.le_of_not_lt hy),
          List.getD_eq_default _ _ (Nat.le_of_not_lt hy)]
        simp
      refine ⟨h.decay_nonneg, h.confRows, ?_, ?_, h.conf_nonneg, ?_, h.conf_mono, ?_⟩
      · intro y hy
        have hy' : y < s.curBlockConf.length := by
          simpa [length_mapIdx0] using hy
        show ((mapIdx0 _ s.curBlockConf).getD y []).length = _
        simp only [getD_mapIdx0_lt _ s.curBlockConf y hy'
          ([] : List Int) ([] : List Int)]
        by_cases hcond : b.toNat - 1 ≤ y
        · rw [if_pos hcond, length_bumpAt]
          exact h.curRows y hy'
        · rw [if_neg hcond]
          exact h.curRows y hy'
      · show (mapIdx0 _ s.curBlockConf).length = s.confAvg.length
        rw [length_mapIdx0]
        exact h.len_eq
      · intro y x
        by_cases hy : y < s.curBlockConf.length
        · rw [hentry y x hy]
          have := h.cur_nonneg y x
          split <;> omega
        · exact ((hout y x hy).1).ge
      · intro y x hy1
        have hy1' : y + 1 < s.curBlockConf.length := by
          simpa [length_mapIdx0] using hy1
        have hy' : y < s.curBlockConf.length := by omega
        have hl : (s.curBlockConf.getD y []).length = s.buckets.length :=
          h.curRows y hy'
        have hl1 : (s.curBlockConf.getD (y + 1) []).length = s.buckets.length :=
          h.curRows (y + 1) hy1'
        rw [hentry y x hy', hentry (y + 1) x hy1']
        have hm := h.cur_mono y x hy1'
        split_ifs <;> omega

theorem inv_UpdateMovingAverages (s : TxConfirmStats) (h : StatsInv s) :
    StatsInv s.UpdateMovingAverages := by
  have hrow : ∀ y, y < s.confAvg.length →
      s.UpdateMovingAverages.confAvg.getD y []
        = mapIdx0 (fun j a => if j < s.buckets.length then
            a * s.decay + (((s.curBlockConf.getD y []).getD j 0 : Int) : ℚ)
          else a) (s.confAvg.getD y []) := by
    intro y hy
    show (mapIdx0 _ s.confAvg).getD y [] = _
    simp only [getD_mapIdx0_lt _ s.confAvg y hy ([] : List ℚ) ([] : List ℚ)]
  have hlen : s.UpdateMovingAverages.confAvg.length = s.confAvg.length := by
    show (mapIdx0 _ s.confAvg).length = _
    exact length_mapIdx0 _ _
  have hentry : ∀ y x, y < s.confAvg.length →
      getCQ s.UpdateMovingAverages.confAvg y x
        = if x < (s.confAvg.getD y []).length ∧ x < s.buckets.length then
            getCQ s.confAvg y x * s.decay + ((getCI s.curBlockConf y x : Int) : ℚ)
          else getCQ s.confAvg y x := by
    intro y x hy
    unfold getCQ getCI
    rw [hrow y hy]
    by_cases hxl : x < (s.confAvg.getD y []).length
    · simp only [getD_mapIdx0_lt _ _ x hxl (0 : ℚ) (0 : ℚ)]
      by_cases hk : x < s.buckets.length
      · rw [if_pos hk, if_pos ⟨hxl, hk⟩]
      · rw [if_neg hk, if_neg (by tauto)]
    · rw [getD_mapIdx0_ge _ _ _ (Nat.le_of_not_lt hxl),
        List.getD_eq_default _ _ (Nat.le_of_not_lt hxl), if_neg (by tauto)]
  have hout : ∀ y x, ¬ y < s.confAvg.length →
      getCQ s.UpdateMovingAverages.confAvg y x = 0 ∧ getCQ s.confAvg y x = 0 := by
    intro y x hy
    unfold getCQ
    have hge : s.confAvg.length ≤ y := Nat.le_of_not_lt hy
    have hr1 : s.UpdateMovingAverages.confAvg.getD y [] = [] :=
      List.getD_eq_default _ _ (by simpa [hlen] using hge)
    have hr2 : s.confAvg.getD y [] = [] := List.getD_eq_default _ _ hge
    rw [hr1, hr2]
    simp
  refine ⟨h.decay_nonneg, ?_, h.curRows, ?_, ?_, h.cur_nonneg, ?_, h.cur_mono⟩
  · intro y hy
    have hy' : y < s.confAvg.length := by simpa [hlen] using hy
    rw [hrow y hy', length_mapIdx0]
    exact h.confRows y hy'
  · show s.curBlockConf.length = (mapIdx0 _ s.confAvg).length
    rw [length_mapIdx0]
    exact h.len_eq
  · intro y x
    by_cases hy : y < s.confAvg.length
    · rw [hentry y x hy]
      split
      · exact add_nonneg (mul_nonneg (h.conf_nonneg y x) h.decay_nonneg)
          (by exact_mod_cast h.cur_nonneg y x)
      · exact h.conf_nonneg y x
    · exact ((hout y x hy).1).ge
  · intro y x hy1
    have hy1' : y + 1 < s.confAvg.length := by simpa [hlen] using hy1
    have hy' : y < s.confAvg.length := by omega
    have hl : (s.confAvg.getD y []).length = s.buckets.length :=
      h.confRows y hy'
    have hl1 : (s.confAvg.getD (y + 1) []).length = s.buckets.length :=
      h.confRows (y + 1) hy1'
    rw [hentry y x hy', hentry (y + 1) x hy1', hl, hl1]
    have hcm := h.conf_mono y x hy1'
    have hcur : getCI s.curBlockConf y x ≤ getCI s.curBlockConf (y + 1) x :=
      h.cur_mono y x (by rw [h.len_eq]; exact hy1')
    by_cases hk : x < s.buckets.length
    · rw [if_pos ⟨hk, hk⟩, if_pos ⟨hk, hk⟩]
      exact add_le_add (mul_le_mul_of_nonneg_right hcm h.decay_nonneg)
        (by exact_mod_cast hcur)
    · rw [if_neg (by tauto), if_neg (by tauto)]
      exact hcm

/-- The operations a client may run on a `TxConfirmStats` after
`Initialize`. -/
inductive StatOp where
  | clearCurrent
  | record (blocksToConfirm : Int) (val : ℚ)
  | updateMovingAverages
  deriving Repr

def StatOp.apply (s : TxConfirmStats) : StatOp → TxConfirmStats
  | .clearCurrent => s.ClearCurrent
  | .record b v => s.Record b v
  | .updateMovingAverages => s.UpdateMovingAverages

def runStatOps (s : TxConfirmStats) (ops : List StatOp) : TxConfirmStats :=
  ops.foldl StatOp.apply s

theorem inv_apply (s : TxConfirmStats) (op : StatOp) (h : StatsInv s) :
    StatsInv (StatOp.apply s op) := by
  cases op with
  | clearCurrent => exact inv_ClearCurrent s h
  | record b v => exact inv_Record s b v h
  | updateMovingAverages => exact inv_UpdateMovingAverages s h

theorem inv_runStatOps (ops : List StatOp) (s : TxConfirmStats) (h : StatsInv s) :
    StatsInv (runStatOps s ops) := by
  induction ops generalizing s with
  | nil => exact h
  | cons op rest ih => exact ih (StatOp.apply s op) (inv_apply s op h)

/-- **C2.** Starting from `Initialize` (whose contract requires a decay in
(0,1)), after any operation sequence ending in `UpdateMovingAverages`
every `confAvg[y][x]` entry is non-negative, and for each fixed bucket `x`
it is non-decreasing in the confirmation depth `y`. -/
theorem confAvg_nonneg_monotone (bs : List ℚ) (mc : Nat) (decay : ℚ)
    (lbl : String) (ops : List StatOp) (hd0 : 0 < decay) (hd1 : decay < 1) :
    (∀ y x, 0 ≤ getCQ (runStatOps (TxConfirmStats.Initialize bs mc decay lbl)
        (ops ++ [StatOp.updateMovingAverages])).confAvg y x)
    ∧ (∀ y x, y + 1 < (runStatOps (TxConfirmStats.Initialize bs mc decay lbl)
          (ops ++ [StatOp.updateMovingAverages])).confAvg.length →
        getCQ (runStatOps (TxConfirmStats.Initialize bs mc decay lbl)
            (ops ++ [StatOp.updateMovingAverages])).confAvg y x
          ≤ getCQ (runStatOps (TxConfirmStats.Initialize bs mc decay lbl)
            (ops ++ [StatOp.updateMovingAverages])).confAvg (y + 1) x) := by
  have hinv : StatsInv (runStatOps (TxConfirmStats.Initialize bs mc decay lbl)
      (ops ++ [StatOp.updateMovingAverages])) :=
    inv_runStatOps _ _ (inv_Initialize bs mc decay lbl (le_of_lt hd0))
  exact ⟨hinv.conf_nonneg, fun y x hy => hinv.conf_mono y x hy⟩

/-- Witness for C2: two buckets, two confirmation depths, decay 1/2, one
recorded transaction, then the closing `UpdateMovingAverages`. -/
theorem confAvg_nonneg_monotone_witness :
    (∀ y x, 0 ≤ getCQ (runStatOps
        (TxConfirmStats.Initialize [0, 1000] 2 (1 / 2) "FeeRate")
        ([StatOp.record 1 500] ++ [StatOp.updateMovingAverages])).confAvg y x)
    ∧ (∀ y x, y + 1 < (runStatOps
          (TxConfirmStats.Initialize [0, 1000] 2 (1 / 2) "FeeRate")
          ([StatOp.record 1 500] ++ [StatOp.updateMovingAverages])).confAvg.length →
        getCQ (runStatOps
            (TxConfirmStats.Initialize [0, 1000] 2 (1 / 2) "FeeRate")
            ([StatOp.record 1 500] ++ [StatOp.updateMovingAverages])).confAvg y x
          ≤ getCQ (runStatOps
            (TxConfirmStats.Initialize [0, 1000] 2 (1 / 2) "FeeRate")
            ([StatOp.record 1 500] ++ [StatOp.updateMovingAverages])).confAvg
              (y + 1) x) :=
  confAvg_nonneg_monotone [0, 1000] 2 (1 / 2) "FeeRate" [StatOp.record 1 500]
    (by norm_num) (by norm_num)

/-! ### C6 / C7 / C8: serialization -/

theorem readConfRows_append (k : Nat) (rows : List (List ℚ)) (rest : SerStream)
    (hlen : ∀ r ∈ rows, r.length = k) :
    readConfRows k rows.length (rows.map SerItem.vec ++ rest) = .ok (rows, rest) := by
  induction rows with
  | nil => rfl
  | cons r rs ih =>
    have hr : r.length = k := hlen r (List.mem_cons_self _ _)
    have hrs := ih fun q hq => hlen q (List.mem_cons_of_mem _ hq)
    show readConfRows k (rs.length + 1) (SerItem.vec r :: (rs.map SerItem.vec ++ rest))
      = _
    simp [readConfRows, readVec, hr, hrs, Bind.bind, Except.bind, throw,
      throwThe, MonadExceptOf.throw, pure, Except.pure]

theorem readRows_append (rows : List (List ℚ)) (rest : SerStream) :
    readRows rows.length (rows.map SerItem.vec ++ rest) = .ok (rows, rest) := by
  induction rows with
  | nil => rfl
  | cons r rs ih =>
    show readRows (rs.length + 1) (SerItem.vec r :: (rs.map SerItem.vec ++ rest)) = _
    simp [readRows, readVec, ih, Bind.bind, Except.bind, pure, Except.pure]

theorem map_listResize_id {α : Type} (m : List (List α)) (k : Nat) (d : α)
    (hm : ∀ r ∈ m, r.length = k) :
    m.map (fun row => listResize row k d) = m := by
  induction m with
  | nil => rfl
  | cons r rs ih =>
    rw [List.map_cons, ih fun q hq => hm q (List.mem_cons_of_mem _ hq)]
    have : listResize r k d = r := by
      rw [← hm r (List.mem_cons_self _ _)]
      exact listResize_eq_self r d
    rw [this]

theorem resizeConf_eq_self (m : List (List Int)) (k : Nat)
    (hm : ∀ r ∈ m, r.length = k) : resizeConf m m.length k = m := by
  unfold resizeConf
  rw [listResize_eq_self, map_listResize_id m k 0 hm]

/-- Parsing a well-formed `TxConfirmStats::Write`-layout stream commits the
stream's tables and resizes the block-local scratch tables. -/
theorem ReadStream_write_format (s0 : TxConfirmStats) (decay : ℚ)
    (bks avgv txct : List ℚ) (rows : List (List ℚ)) (rest : SerStream)
    (hd0 : 0 < decay) (hd1 : decay < 1)
    (hK2 : 2 ≤ bks.length) (hK1000 : bks.length ≤ 1000)
    (hmc1 : 1 ≤ rows.length) (hmc1008 : rows.length ≤ 1008)
    (havg : avgv.length = bks.length) (htx : txct.length = bks.length)
    (hrows : ∀ r ∈ rows, r.length = bks.length) :
    TxConfirmStats.ReadStream s0
      (.d decay :: .sz rows.length :: .vec bks :: .vec avgv :: .vec txct ::
        (rows.map SerItem.vec ++ rest))
      = .ok ({ s0 with
          decay := decay
          buckets := bks
          avg := avgv
          confAvg := rows
          txCtAvg := txct
          bucketMap := buildMapFrom [] bks 0
          curBlockConf := resizeConf s0.curBlockConf rows.length bks.length
          curBlockTxCt := listResize s0.curBlockTxCt bks.length 0
          curBlockVal := listResize s0.curBlockVal bks.length 0 }, rest) := by
  have hc1 : ¬(decay ≤ 0 ∨ 1 ≤ decay) := by
    push_neg
    exact ⟨hd0, hd1⟩
  have hc2 : ¬(rows.length = 0 ∨ 1008 < rows.length) := by omega
  have hc3 : ¬(bks.length ≤ 1 ∨ 1000 < bks.length) := by omega
  have hc4 : ¬(avgv.length ≠ bks.length) := by omega
  have hc5 : ¬(txct.length ≠ bks.length) := by omega
  have hne : rows ≠ [] := by
    intro hnil
    rw [hnil] at hmc1
    simp at hmc1
  unfold TxConfirmStats.ReadStream
  simp [readD, readSz, readVec, hc1, hc2, hc3, hc4, hc5, hne, hmc1008,
    readConfRows_append bks.length rows rest hrows,
    Bind.bind, Except.bind, throw, throwThe, MonadExceptOf.throw,
    pure, Except.pure]

/-- The states `TxConfirmStats::Write` can see in a running estimator:
validation-range parameters, consistent table shapes, and a bucket map in
sync with the bucket bounds. -/
def StatsValid (s : TxConfirmStats) : Prop :=
  0 < s.decay ∧ s.decay < 1
  ∧ 2 ≤ s.buckets.length ∧ s.buckets.length ≤ 1000
  ∧ 1 ≤ s.confAvg.length ∧ s.confAvg.length ≤ 1008
  ∧ (∀ r ∈ s.confAvg, r.length = s.buckets.length)
  ∧ s.avg.length = s.buckets.length
  ∧ s.txCtAvg.length = s.buckets.length
  ∧ s.bucketMap = buildMapFrom [] s.buckets 0
  ∧ s.curBlockConf.length = s.confAvg.length
  ∧ (∀ r ∈ s.curBlockConf, r.length = s.buckets.length)
  ∧ s.curBlockTxCt.length = s.buckets.length
  ∧ s.curBlockVal.length = s.buckets.length

theorem ReadStream_WriteStream (s : TxConfirmStats) (h : StatsValid s) :
    TxConfirmStats.ReadStream s s.WriteStream = .ok (s, []) := by
  obtain ⟨h1, h2, h3, h4, h5, h6, h7, h8, h9, h10, h11, h12, h13, h14⟩ := h
  have hw : s.WriteStream
      = .d s.decay :: .sz s.confAvg.length :: .vec s.buckets :: .vec s.avg ::
          .vec s.txCtAvg :: (s.confAvg.map SerItem.vec ++ []) := by
    unfold TxConfirmStats.WriteStream
    rw [List.append_nil]
  rw [hw, ReadStream_write_format s s.decay s.buckets s.avg s.txCtAvg s.confAvg []
    h1 h2 h3 h4 h5 h6 h8 h9 h7]
  have hconf : resizeConf s.curBlockConf s.confAvg.length s.buckets.length
      = s.curBlockConf := by
    rw [← h11]
    exact resizeConf_eq_self s.curBlockConf s.buckets.length h12
  have hct : listResize s.curBlockTxCt s.buckets.length 0 = s.curBlockTxCt := by
    rw [← h13]
    exact listResize_eq_self _ _
  have hval : listResize s.curBlockVal s.buckets.length 0 = s.curBlockVal := by
    rw [← h14]
    exact listResize_eq_self _ _
  rw [hconf, hct, hval, ← h10]

/-- Valid in-memory `TxConfirmStat` states (the feetool-side table, which
also carries the mempool-tracking scratch vectors). -/
def StatValidT (t : TxConfirmStat) : Prop :=
  0 < t.decay ∧ t.decay < 1
  ∧ 2 ≤ t.buckets.length ∧ t.buckets.length ≤ 1000
  ∧ 1 ≤ t.confAvg.length ∧ t.confAvg.length ≤ 1008
  ∧ (∀ r ∈ t.confAvg, r.length = t.buckets.length)
  ∧ t.avg.length = t.buckets.length
  ∧ t.txCtAvg.length = t.buckets.length
  ∧ t.bucketMap = buildMapFrom [] t.buckets 0
  ∧ t.curBlockConf.length = t.confAvg.length
  ∧ (∀ r ∈ t.curBlockConf, r.length = t.buckets.length)
  ∧ t.curBlockTxCt.length = t.buckets.length
  ∧ t.curBlockVal.length = t.buckets.length
  ∧ t.unconfTxs.length = t.confAvg.length
  ∧ (∀ r ∈ t.unconfTxs, r.length = t.buckets.length)
  ∧ t.oldUnconfTxs.length = t.buckets.length

/-- Parsing a well-formed legacy-layout stream with the version-aware
reader. -/
theorem ReadV_legacy_format (s0 : TxConfirmStat) (version : Int)
    (hv : version < 100000) (decay : ℚ)
    (bks avgv txct : List ℚ) (rows : List (List ℚ)) (rest : SerStream)
    (hd0 : 0 < decay) (hd1 : decay < 1)
    (hK2 : 2 ≤ bks.length) (hK1000 : bks.length ≤ 1000)
    (hmc1 : 1 ≤ rows.length) (hmc1008 : rows.length ≤ 1008)
    (havg : avgv.length = bks.length) (htx : txct.length = bks.length)
    (hrows : ∀ r ∈ rows, r.length = bks.length) :
    TxConfirmStat.ReadV s0 version
      (.d decay :: .sz rows.length :: .vec bks :: .vec avgv :: .vec txct ::
        (rows.map SerItem.vec ++ rest))
      = .ok ({ s0 with
          decay := decay
          buckets := bks
          avg := avgv
          confAvg := rows
          txCtAvg := txct
          bucketMap := buildMapFrom [] bks 0
          curBlockConf := resizeConf s0.curBlockConf rows.length bks.length
          curBlockTxCt := listResize s0.curBlockTxCt bks.length 0
          curBlockVal := listResize s0.curBlockVal bks.length 0
          unconfTxs := resizeConf s0.unconfTxs rows.length bks.length
          oldUnconfTxs := listResize s0.oldUnconfTxs bks.length 0 }, rest) := by
  have hc1 : ¬(decay ≤ 0 ∨ 1 ≤ decay) := by
    push_neg
    exact ⟨hd0, hd1⟩
  have hc3 : ¬(bks.length ≤ 1 ∨ 1000 < bks.length) := by omega
  have hc4 : ¬(avgv.length ≠ bks.length) := by omega
  have hc5 : ¬(txct.length ≠ bks.length) := by omega
  have hne : rows ≠ [] := by
    intro hnil
    rw [hnil] at hmc1
    simp at hmc1
  have hall : rows.any (fun row => row.length ≠ bks.length) = false := by
    rw [List.any_eq_false]
    intro r hr
    simpa using hrows r hr
  unfold TxConfirmStat.ReadV
  simp [readD, readSz, readVec, hv, hc1, hc3, hc4, hc5, hne, hmc1008, hall,
    readRows_append rows rest,
    Bind.bind, Except.bind, throw, throwThe, MonadExceptOf.throw,
    pure, Except.pure]
  rw [if_neg (by omega), if_neg (by simpa using hrows)]

/-- Parsing a well-formed modern-layout stream with the version-aware
reader. -/
theorem ReadV_modern_format (s0 : TxConfirmStat) (version : Int)
    (hv : ¬ version < 100000) (decay : ℚ)
    (bks avgv txct : List ℚ) (rows : List (List ℚ)) (rest : SerStream)
    (hd0 : 0 < decay) (hd1 : decay < 1)
    (hK2 : 2 ≤ bks.length) (hK1000 : bks.length ≤ 1000)
    (hmc1 : 1 ≤ rows.length) (hmc1008 : rows.length ≤ 1008)
    (havg : avgv.length = bks.length) (htx : txct.length = bks.length)
    (hrows : ∀ r ∈ rows, r.length = bks.length) :
    TxConfirmStat.ReadV s0 version
      (.d decay :: .vec bks :: .vec avgv :: .vec txct :: .vecvec rows :: rest)
      = .ok ({ s0 with
          decay := decay
          buckets := bks
          avg := avgv
          confAvg := rows
          txCtAvg := txct
          bucketMap := buildMapFrom [] bks 0
          curBlockConf := resizeConf s0.curBlockConf rows.length bks.length
          curBlockTxCt := listResize s0.curBlockTxCt bks.length 0
          curBlockVal := listResize s0.curBlockVal bks.length 0
          unconfTxs := resizeConf s0.unconfTxs rows.length bks.length
          oldUnconfTxs := listResize s0.oldUnconfTxs bks.length 0 }, rest) := by
  have hc1 : ¬(decay ≤ 0 ∨ 1 ≤ decay) := by
    push_neg
    exact ⟨hd0, hd1⟩
  have hc3 : ¬(bks.length ≤ 1 ∨ 1000 < bks.length) := by omega
  have hc4 : ¬(avgv.length ≠ bks.length) := by omega
  have hc5 : ¬(txct.length ≠ bks.length) := by omega
  have hne : rows ≠ [] := by
    intro hnil
    rw [hnil] at hmc1
    simp at hmc1
  have hall : rows.any (fun row => row.length ≠ bks.length) = false := by
    rw [List.any_eq_false]
    intro r hr
    simpa using hrows r hr
  unfold TxConfirmStat.ReadV
  simp [readD, readSz, readVec, readVecVec, hv, hc1, hc3, hc4, hc5, hne,
    hmc1008, hall,
    Bind.bind, Except.bind, throw, throwThe, MonadExceptOf.throw,
    pure, Except.pure]
  rw [if_neg (by omega), if_neg (by simpa using hrows)]

theorem ReadV_writeLegacy (t : TxConfirmStat) (version : Int)
    (h : StatValidT t) (hv : version < 100000) :
    TxConfirmStat.ReadV t version t.writeLegacy = .ok (t, []) := by
  obtain ⟨h1, h2, h3, h4, h5, h6, h7, h8, h9, h10, h11, h12, h13, h14, h15,
    h16, h17⟩ := h
  have hw : t.writeLegacy
      = .d t.decay :: .sz t.confAvg.length :: .vec t.buckets :: .vec t.avg ::
          .vec t.txCtAvg :: (t.confAvg.map SerItem.vec ++ []) := by
    unfold TxConfirmStat.writeLegacy
    rw [List.append_nil]
  rw [hw, ReadV_legacy_format t version hv t.decay t.buckets t.avg t.txCtAvg
    t.confAvg [] h1 h2 h3 h4 h5 h6 h8 h9 h7]
  have hconf : resizeConf t.curBlockConf t.confAvg.length t.buckets.length
      = t.curBlockConf := by
    rw [← h11]
    exact resizeConf_eq_self t.curBlockConf t.buckets.length h12
  have huncf : resizeConf t.unconfTxs t.confAvg.length t.buckets.length
      = t.unconfTxs := by
    rw [← h15]
    exact resizeConf_eq_self t.unconfTxs t.buckets.length h16
  have hct : listResize t.curBlockTxCt t.buckets.length 0 = t.curBlockTxCt := by
    rw [← h13]
    exact listResize_eq_self _ _
  have hval : listResize t.curBlockVal t.buckets.length 0 = t.curBlockVal := by
    rw [← h14]
    exact listResize_eq_self _ _
  have hold : listResize t.oldUnconfTxs t.buckets.length 0 = t.oldUnconfTxs := by
    rw [← h17]
    exact listResize_eq_self _ _
  rw [hconf, huncf, hct, hval, hold, ← h10]

theorem ReadV_writeModern (t : TxConfirmStat) (version : Int)
    (h : StatValidT t) (hv : 100000 ≤ version) :
    TxConfirmStat.ReadV t version t.writeModern = .ok (t, []) := by
  obtain ⟨h1, h2, h3, h4, h5, h6, h7, h8, h9, h10, h11, h12, h13, h14, h15,
    h16, h17⟩ := h
  rw [show t.writeModern = .d t.decay :: .vec t.buckets :: .vec t.avg ::
      .vec t.txCtAvg :: .vecvec t.confAvg :: [] from rfl,
    ReadV_modern_format t version (by omega) t.decay t.buckets t.avg t.txCtAvg
      t.confAvg [] h1 h2 h3 h4 h5 h6 h8 h9 h7]
  have hconf : resizeConf t.curBlockConf t.confAvg.length t.buckets.length
      = t.curBlockConf := by
    rw [← h11]
    exact resizeConf_eq_self t.curBlockConf t.buckets.length h12
  have huncf : resizeConf t.unconfTxs t.confAvg.length t.buckets.length
      = t.unconfTxs := by
    rw [← h15]
    exact resizeConf_eq_self t.unconfTxs t.buckets.length h16
  have hct : listResize t.curBlockTxCt t.buckets.length 0 = t.curBlockTxCt := by
    rw [← h13]
    exact listResize_eq_self _ _
  have hval : listResize t.curBlockVal t.buckets.length 0 = t.curBlockVal := by
    rw [← h14]
    exact listResize_eq_self _ _
  have hold : listResize t.oldUnconfTxs t.buckets.length 0 = t.oldUnconfTxs := by
    rw [← h17]
    exact listResize_eq_self _ _
  rw [hconf, huncf, hct, hval, hold, ← h10]

/-- **C6.** Serialize-then-deserialize is the identity on valid statistics
states: the in-repository pair (`TxConfirmStats::Write` then
`TxConfirmStats::Read`), and the version-aware `TxConfirmStat::Read` fed
its own layout at both supported versions (the legacy layout is the one
`Write` produces; the modern writer is modelled from the spec). -/
theorem serialize_roundtrip :
    (∀ s : TxConfirmStats, StatsValid s →
        TxConfirmStats.ReadStream s s.WriteStream = .ok (s, []))
    ∧ (∀ (t : TxConfirmStat) (version : Int), StatValidT t → version < 100000 →
        TxConfirmStat.ReadV t version t.writeLegacy = .ok (t, []))
    ∧ (∀ (t : TxConfirmStat) (version : Int), StatValidT t → 100000 ≤ version →
        TxConfirmStat.ReadV t version t.writeModern = .ok (t, [])) :=
  ⟨ReadStream_WriteStream, ReadV_writeLegacy, ReadV_writeModern⟩

/-- Witness for C6: a small valid table round-trips through the
in-repository writer/reader pair. -/
theorem serialize_roundtrip_witness :
    TxConfirmStats.ReadStream
        (TxConfirmStats.Initialize [0, 1000] 2 (1 / 2) "FeeRate")
        (TxConfirmStats.Initialize [0, 1000] 2 (1 / 2) "FeeRate").WriteStream
      = .ok (TxConfirmStats.Initialize [0, 1000] 2 (1 / 2) "FeeRate", []) := by
  apply serialize_roundtrip.1
  refine ⟨by norm_num [TxConfirmStats.Initialize],
    by norm_num [TxConfirmStats.Initialize], by decide, by decide, by decide,
    by decide, ?_, by decide, by decide, rfl, by decide, ?_, by decide,
    by decide⟩
  · intro r hr
    rw [List.eq_of_mem_replicate hr]
    decide
  · intro r hr
    rw [List.eq_of_mem_replicate hr]
    decide

theorem readConfRows_err (k : Nat) (rows : List (List ℚ)) (rest : SerStream)
    (hbad : ∃ r ∈ rows, r.length ≠ k) :
    ∃ msg, readConfRows k rows.length (rows.map SerItem.vec ++ rest)
      = .error msg := by
  induction rows with
  | nil => simp at hbad
  | cons r rs ih =>
    by_cases hr : r.length = k
    · obtain ⟨q, hq, hqk⟩ := hbad
      have hbad' : ∃ q ∈ rs, q.length ≠ k := by
        rcases List.mem_cons.mp hq with h | h
        · exact absurd (h ▸ hqk) (by simp [hr])
        · exact ⟨q, h, hqk⟩
      obtain ⟨msg, hmsg⟩ := ih hbad'
      refine ⟨msg, ?_⟩
      show readConfRows k (rs.length + 1)
        (SerItem.vec r :: (rs.map SerItem.vec ++ rest)) = _
      simp [readConfRows, readVec, hr, hmsg, Bind.bind, Except.bind, throw,
        throwThe, MonadExceptOf.throw, pure, Except.pure]
    · refine ⟨"Corrupt estimates file. Mismatch in fee conf vector size", ?_⟩
      show readConfRows k (rs.length + 1)
        (SerItem.vec r :: (rs.map SerItem.vec ++ rest)) = _
      simp [readConfRows, readVec, hr, Bind.bind, Except.bind, throw,
        throwThe, MonadExceptOf.throw, pure, Except.pure]

/-- **C7.** Every validation violation during deserialization of a
statistics table — decay outside (0,1), confirm count outside [1,1008],
bucket count outside [2,1000], a mismatched average or tx-count vector, or
any confirmation row of the wrong width — aborts that deserialize call
with an error, and an aborted read leaves every field of the receiving
instance untouched.  Covered for both deserializers: `TxConfirmStats::Read`
(conjuncts 1-7) and the version-aware `TxConfirmStat::Read` at both
on-disk layouts (conjuncts 8-19). -/
theorem deserialize_validation :
    (∀ (s : TxConfirmStats) (d : ℚ) (rest : SerStream), d ≤ 0 ∨ 1 ≤ d →
        ∃ msg, s.ReadStream (.d d :: rest) = .error msg)
    ∧ (∀ (s : TxConfirmStats) (d : ℚ) (mc : Nat) (rest : SerStream),
        0 < d → d < 1 → (mc = 0 ∨ 1008 < mc) →
        ∃ msg, s.ReadStream (.d d :: .sz mc :: rest) = .error msg)
    ∧ (∀ (s : TxConfirmStats) (d : ℚ) (mc : Nat) (bks : List ℚ)
        (rest : SerStream), 0 < d → d < 1 → ¬(mc = 0 ∨ 1008 < mc) →
        (bks.length ≤ 1 ∨ 1000 < bks.length) →
        ∃ msg, s.ReadStream (.d d :: .sz mc :: .vec bks :: rest) = .error msg)
    ∧ (∀ (s : TxConfirmStats) (d : ℚ) (mc : Nat) (bks avgv : List ℚ)
        (rest : SerStream), 0 < d → d < 1 → ¬(mc = 0 ∨ 1008 < mc) →
        ¬(bks.length ≤ 1 ∨ 1000 < bks.length) → avgv.length ≠ bks.length →
        ∃ msg, s.ReadStream (.d d :: .sz mc :: .vec bks :: .vec avgv :: rest)
          = .error msg)
    ∧ (∀ (s : TxConfirmStats) (d : ℚ) (mc : Nat) (bks avgv txct : List ℚ)
        (rest : SerStream), 0 < d → d < 1 → ¬(mc = 0 ∨ 1008 < mc) →
        ¬(bks.length ≤ 1 ∨ 1000 < bks.length) → avgv.length = bks.length →
        txct.length ≠ bks.length →
        ∃ msg, s.ReadStream
            (.d d :: .sz mc :: .vec bks :: .vec avgv :: .vec txct :: rest)
          = .error msg)
    ∧ (∀ (s : TxConfirmStats) (d : ℚ) (bks avgv txct : List ℚ)
        (rows : List (List ℚ)) (rest : SerStream), 0 < d → d < 1 →
        ¬(rows.length = 0 ∨ 1008 < rows.length) →
        ¬(bks.length ≤ 1 ∨ 1000 < bks.length) → avgv.length = bks.length →
        txct.length = bks.length → (∃ r ∈ rows, r.length ≠ bks.length) →
        ∃ msg, s.ReadStream
            (.d d :: .sz rows.length :: .vec bks :: .vec avgv :: .vec txct ::
              (rows.map SerItem.vec ++ rest))
          = .error msg)
    ∧ (∀ (s : TxConfirmStats) (st : SerStream) (msg : String),
        s.ReadStream st = .error msg → s.ReadInto st = s)
    ∧ (∀ (t : TxConfirmStat) (version : Int) (d : ℚ) (rest : SerStream),
        d ≤ 0 ∨ 1 ≤ d →
        ∃ msg, t.ReadV version (.d d :: rest) = .error msg)
    ∧ (∀ (t : TxConfirmStat) (version : Int) (d : ℚ) (mc : Nat)
        (bks : List ℚ) (rest : SerStream), version < 100000 → 0 < d → d < 1 →
        (bks.length ≤ 1 ∨ 1000 < bks.length) →
        ∃ msg, t.ReadV version (.d d :: .sz mc :: .vec bks :: rest)
          = .error msg)
    ∧ (∀ (t : TxConfirmStat) (version : Int) (d : ℚ) (bks : List ℚ)
        (rest : SerStream), ¬ version < 100000 → 0 < d → d < 1 →
        (bks.length ≤ 1 ∨ 1000 < bks.length) →
        ∃ msg, t.ReadV version (.d d :: .vec bks :: rest) = .error msg)
    ∧ (∀ (t : TxConfirmStat) (version : Int) (d : ℚ) (mc : Nat)
        (bks avgv : List ℚ) (rest : SerStream), version < 100000 →
        0 < d → d < 1 → ¬(bks.length ≤ 1 ∨ 1000 < bks.length) →
        avgv.length ≠ bks.length →
        ∃ msg, t.ReadV version
            (.d d :: .sz mc :: .vec bks :: .vec avgv :: rest) = .error msg)
    ∧ (∀ (t : TxConfirmStat) (version : Int) (d : ℚ) (bks avgv : List ℚ)
        (rest : SerStream), ¬ version < 100000 → 0 < d → d < 1 →
        ¬(bks.length ≤ 1 ∨ 1000 < bks.length) → avgv.length ≠ bks.length →
        ∃ msg, t.ReadV version (.d d :: .vec bks :: .vec avgv :: rest)
          = .error msg)
    ∧ (∀ (t : TxConfirmStat) (version : Int) (d : ℚ) (mc : Nat)
        (bks avgv txct : List ℚ) (rest : SerStream), version < 100000 →
        0 < d → d < 1 → ¬(bks.length ≤ 1 ∨ 1000 < bks.length) →
        avgv.length = bks.length → txct.length ≠ bks.length →
        ∃ msg, t.ReadV version
            (.d d :: .sz mc :: .vec bks :: .vec avgv :: .vec txct :: rest)
          = .error msg)
    ∧ (∀ (t : TxConfirmStat) (version : Int) (d : ℚ) (bks avgv txct : List ℚ)
        (rest : SerStream), ¬ version < 100000 → 0 < d → d < 1 →
        ¬(bks.length ≤ 1 ∨ 1000 < bks.length) → avgv.length = bks.length →
        txct.length ≠ bks.length →
        ∃ msg, t.ReadV version
            (.d d :: .vec bks :: .vec avgv :: .vec txct :: rest) = .error msg)
    ∧ (∀ (t : TxConfirmStat) (version : Int) (d : ℚ) (bks avgv txct : List ℚ)
        (rows : List (List ℚ)) (rest : SerStream), version < 100000 →
        0 < d → d < 1 → ¬(bks.length ≤ 1 ∨ 1000 < bks.length) →
        avgv.length = bks.length → txct.length = bks.length →
        (rows.length = 0 ∨ 1008 < rows.length) →
        ∃ msg, t.ReadV version
            (.d d :: .sz rows.length :: .vec bks :: .vec avgv :: .vec txct ::
              (rows.map SerItem.vec ++ rest))
          = .error msg)
    ∧ (∀ (t : TxConfirmStat) (version : Int) (d : ℚ) (bks avgv txct : List ℚ)
        (rows : List (List ℚ)) (rest : SerStream), ¬ version < 100000 →
        0 < d → d < 1 → ¬(bks.length ≤ 1 ∨ 1000 < bks.length) →
        avgv.length = bks.length → txct.length = bks.length →
        (rows.length = 0 ∨ 1008 < rows.length) →
        ∃ msg, t.ReadV version
            (.d d :: .vec bks :: .vec avgv :: .vec txct :: .vecvec rows :: rest)
          = .error msg)
    ∧ (∀ (t : TxConfirmStat) (version : Int) (d : ℚ) (bks avgv txct : List ℚ)
        (rows : List (List ℚ)) (rest : SerStream), version < 100000 →
        0 < d → d < 1 → ¬(bks.length ≤ 1 ∨ 1000 < bks.length) →
        avgv.length = bks.length → txct.length = bks.length →
        ¬(rows.length = 0 ∨ 1008 < rows.length) →
        (∃ r ∈ rows, r.length ≠ bks.length) →
        ∃ msg, t.ReadV version
            (.d d :: .sz rows.length :: .vec bks :: .vec avgv :: .vec txct ::
              (rows.map SerItem.vec ++ rest))
          = .error msg)
    ∧ (∀ (t : TxConfirmStat) (version : Int) (d : ℚ) (bks avgv txct : List ℚ)
        (rows : List (List ℚ)) (rest : SerStream), ¬ version < 100000 →
        0 < d → d < 1 → ¬(bks.length ≤ 1 ∨ 1000 < bks.length) →
        avgv.length = bks.length → txct.length = bks.length →
        ¬(rows.length = 0 ∨ 1008 < rows.length) →
        (∃ r ∈ rows, r.length ≠ bks.length) →
        ∃ msg, t.ReadV version
            (.d d :: .vec bks :: .vec avgv :: .vec txct :: .vecvec rows :: rest)
          = .error msg)
    ∧ (∀ (t : TxConfirmStat) (version : Int) (st : SerStream) (msg : String),
        t.ReadV version st = .error msg → t.ReadIntoV version st = t) := by
  have hdecOf : ∀ d : ℚ, 0 < d → d < 1 → ¬(d ≤ 0 ∨ 1 ≤ d) := by
    intro d hd0 hd1
    push_neg
    exact ⟨hd0, hd1⟩
  refine ⟨?_, ?_, ?_, ?_, ?_, ?_, ?_, ?_, ?_, ?_, ?_, ?_, ?_, ?_, ?_, ?_,
    ?_, ?_, ?_⟩
  · intro s d rest hd
    refine ⟨"Corrupt estimates file. Decay must be between 0 and 1 (non-inclusive)", ?_⟩
    unfold TxConfirmStats.ReadStream
    simp [readD, hd, Bind.bind, Except.bind, throw, throwThe,
      MonadExceptOf.throw, pure, Except.pure]
  · intro s d mc rest hd0 hd1 hmc
    refine ⟨"Corrupt estimates file.  Must maintain estimates for between 1 and 1008 (one week) confirms", ?_⟩
    unfold TxConfirmStats.ReadStream
    simp [readD, readSz, hdecOf d hd0 hd1, hmc, Bind.bind, Except.bind, throw,
      throwThe, MonadExceptOf.throw, pure, Except.pure]
  · intro s d mc bks rest hd0 hd1 hmc hbk
    refine ⟨"Corrupt estimates file. Must have between 2 and 1000 fee buckets", ?_⟩
    unfold TxConfirmStats.ReadStream
    simp [readD, readSz, readVec, hdecOf d hd0 hd1, hmc, hbk, Bind.bind,
      Except.bind, throw, throwThe, MonadExceptOf.throw, pure, Except.pure]
  · intro s d mc bks avgv rest hd0 hd1 hmc hbk havg
    refine ⟨"Corrupt estimates file. Mismatch in fee average vector size", ?_⟩
    unfold TxConfirmStats.ReadStream
    simp [readD, readSz, readVec, hdecOf d hd0 hd1, hmc, hbk, havg, Bind.bind,
      Except.bind, throw, throwThe, MonadExceptOf.throw, pure, Except.pure]
  · intro s d mc bks avgv txct rest hd0 hd1 hmc hbk havg htx
    refine ⟨"Corrupt estimates file. Mismatch in fee tx count vector size", ?_⟩
    unfold TxConfirmStats.ReadStream
    simp [readD, readSz, readVec, hdecOf d hd0 hd1, hmc, hbk, havg, htx,
      Bind.bind, Except.bind, throw, throwThe, MonadExceptOf.throw, pure,
      Except.pure]
  · intro s d bks avgv txct rows rest hd0 hd1 hmc hbk havg htx hbad
    obtain ⟨msg, hmsg⟩ := readConfRows_err bks.length rows rest hbad
    have hne : ¬ rows = [] := by
      intro hnil
      rw [hnil] at hmc
      simp at hmc
    have h1008 : ¬ 1008 < rows.length := by omega
    refine ⟨msg, ?_⟩
    unfold TxConfirmStats.ReadStream
    simp [readD, readSz, readVec, hdecOf d hd0 hd1, hmc, hbk, havg, htx, hmsg,
      hne, h1008, Bind.bind, Except.bind, throw, throwThe, MonadExceptOf.throw,
      pure, Except.pure]
  · intro s st msg h
    unfold TxConfirmStats.ReadInto
    rw [h]
  · intro t version d rest hd
    refine ⟨"Corrupt estimates file. Decay must be between 0 and 1 (non-inclusive)", ?_⟩
    unfold TxConfirmStat.ReadV
    simp [readD, hd, Bind.bind, Except.bind, throw, throwThe,
      MonadExceptOf.throw, pure, Except.pure]
  · intro t version d mc bks rest hv hd0 hd1 hbk
    refine ⟨"Corrupt estimates file. Must have between 2 and 1000 fee/pri buckets", ?_⟩
    unfold TxConfirmStat.ReadV
    simp [readD, readSz, readVec, hv, hdecOf d hd0 hd1, hbk, Bind.bind,
      Except.bind, throw, throwThe, MonadExceptOf.throw, pure, Except.pure]
  · intro t version d bks rest hv hd0 hd1 hbk
    refine ⟨"Corrupt estimates file. Must have between 2 and 1000 fee/pri buckets", ?_⟩
    unfold TxConfirmStat.ReadV
    simp [readD, readVec, hv, hdecOf d hd0 hd1, hbk, Bind.bind,
      Except.bind, throw, throwThe, MonadExceptOf.throw, pure, Except.pure]
  · intro t version d mc bks avgv rest hv hd0 hd1 hbk havg
    refine ⟨"Corrupt estimates file. Mismatch in fee/pri average bucket count", ?_⟩
    unfold TxConfirmStat.ReadV
    simp [readD, readSz, readVec, hv, hdecOf d hd0 hd1, hbk, havg, Bind.bind,
      Except.bind, throw, throwThe, MonadExceptOf.throw, pure, Except.pure]
  · intro t version d bks avgv rest hv hd0 hd1 hbk havg
    refine ⟨"Corrupt estimates file. Mismatch in fee/pri average bucket count", ?_⟩
    unfold TxConfirmStat.ReadV
    simp [readD, readVec, hv, hdecOf d hd0 hd1, hbk, havg, Bind.bind,
      Except.bind, throw, throwThe, MonadExceptOf.throw, pure, Except.pure]
  · intro t version d mc bks avgv txct rest hv hd0 hd1 hbk havg htx
    refine ⟨"Corrupt estimates file. Mismatch in tx count bucket count", ?_⟩
    unfold TxConfirmStat.ReadV
    simp [readD, readSz, readVec, hv, hdecOf d hd0 hd1, hbk, havg, htx,
      Bind.bind, Except.bind, throw, throwThe, MonadExceptOf.throw, pure,
      Except.pure]
  · intro t version d bks avgv txct rest hv hd0 hd1 hbk havg htx
    refine ⟨"Corrupt estimates file. Mismatch in tx count bucket count", ?_⟩
    unfold TxConfirmStat.ReadV
    simp [readD, readVec, hv, hdecOf d hd0 hd1, hbk, havg, htx, Bind.bind,
      Except.bind, throw, throwThe, MonadExceptOf.throw, pure, Except.pure]
  · intro t version d bks avgv txct rows rest hv hd0 hd1 hbk havg htx hmc
    have hmc' : rows = [] ∨ 1008 < rows.length := by
      rcases hmc with h | h
      · exact Or.inl (List.length_eq_zero.mp h)
      · exact Or.inr h
    refine ⟨"Corrupt estimates file.  Must maintain estimates for between 1 and 1008 (one week) confirms", ?_⟩
    unfold TxConfirmStat.ReadV
    simp [readD, readSz, readVec, hv, hdecOf d hd0 hd1, hbk, havg, htx, hmc,
      hmc', readRows_append rows rest, Bind.bind, Except.bind, throw, throwThe,
      MonadExceptOf.throw, pure, Except.pure]
  · intro t version d bks avgv txct rows rest hv hd0 hd1 hbk havg htx hmc
    have hmc' : rows = [] ∨ 1008 < rows.length := by
      rcases hmc with h | h
      · exact Or.inl (List.length_eq_zero.mp h)
      · exact Or.inr h
    refine ⟨"Corrupt estimates file.  Must maintain estimates for between 1 and 1008 (one week) confirms", ?_⟩
    unfold TxConfirmStat.ReadV
    simp [readD, readVec, readVecVec, hv, hdecOf d hd0 hd1, hbk, havg, htx,
      hmc, hmc', Bind.bind, Except.bind, throw, throwThe, MonadExceptOf.throw,
      pure, Except.pure]
  · intro t version d bks avgv txct rows rest hv hd0 hd1 hbk havg htx hmc hbad
    have hne : ¬ rows = [] := by
      intro hnil
      rw [hnil] at hmc
      simp at hmc
    have h1008 : ¬ 1008 < rows.length := by omega
    refine ⟨"Corrupt estimates file. Mismatch in fee/pri conf average bucket count", ?_⟩
    unfold TxConfirmStat.ReadV
    simp [readD, readSz, readVec, hv, hdecOf d hd0 hd1, hbk, havg, htx, hne,
      h1008, hbad, readRows_append rows rest, Bind.bind, Except.bind, throw,
      throwThe, MonadExceptOf.throw, pure, Except.pure]
  · intro t version d bks avgv txct rows rest hv hd0 hd1 hbk havg htx hmc hbad
    have hne : ¬ rows = [] := by
      intro hnil
      rw [hnil] at hmc
      simp at hmc
    have h1008 : ¬ 1008 < rows.length := by omega
    refine ⟨"Corrupt estimates file. Mismatch in fee/pri conf average bucket count", ?_⟩
    unfold TxConfirmStat.ReadV
    simp [readD, readVec, readVecVec, hv, hdecOf d hd0 hd1, hbk, havg, htx,
      hne, h1008, hbad, Bind.bind, Except.bind, throw, throwThe,
      MonadExceptOf.throw, pure, Except.pure]
  · intro t version st msg h
    unfold TxConfirmStat.ReadIntoV
    rw [h]

/-- Witness for C7: an out-of-range decay aborts both deserializers and
leaves each receiving instance untouched. -/
theorem deserialize_validation_witness :
    (∃ msg, (TxConfirmStats.Initialize [0, 1000] 2 (1 / 2) "FeeRate").ReadStream
        [SerItem.d 2] = .error msg)
    ∧ (TxConfirmStats.Initialize [0, 1000] 2 (1 / 2) "FeeRate").ReadInto
        [SerItem.d 2]
      = TxConfirmStats.Initialize [0, 1000] 2 (1 / 2) "FeeRate"
    ∧ (∃ msg, TxConfirmStat.fresh.ReadV 99999 [SerItem.d 2] = .error msg)
    ∧ TxConfirmStat.fresh.ReadIntoV 99999 [SerItem.d 2]
      = TxConfirmStat.fresh := by
  obtain ⟨c1, c2, c3, c4, c5, c6, c7, c8, c9, c10, c11, c12, c13, c14, c15,
    c16, c17, c18, c19⟩ := deserialize_validation
  obtain ⟨msg, hmsg⟩ := c1
    (TxConfirmStats.Initialize [0, 1000] 2 (1 / 2) "FeeRate") 2 []
    (by norm_num)
  obtain ⟨msgV, hmsgV⟩ := c8 TxConfirmStat.fresh 99999 2 [] (by norm_num)
  exact ⟨⟨msg, hmsg⟩, c7 _ _ msg hmsg, ⟨msgV, hmsgV⟩,
    c19 _ _ _ msgV hmsgV⟩

/-- The fresh local `TxConfirmStat` of `main` after reading back the
serialized form of the in-memory statistics `s`. -/
def statOfStats (s : TxConfirmStats) : TxConfirmStat :=
  { TxConfirmStat.fresh with
    decay := s.decay
    buckets := s.buckets
    avg := s.avg
    confAvg := s.confAvg
    txCtAvg := s.txCtAvg
    bucketMap := buildMapFrom [] s.buckets 0
    curBlockConf := resizeConf [] s.confAvg.length s.buckets.length
    curBlockTxCt := listResize [] s.buckets.length 0
    curBlockVal := listResize [] s.buckets.length 0
    unconfTxs := resizeConf [] s.confAvg.length s.buckets.length
    oldUnconfTxs := listResize [] s.buckets.length 0 }

/-- **C8.** The estimates file starts with `version_required` and
`version_written`, then `best_seen_height`, then the fee statistics and
then the priority statistics — and `main` of feetool.cpp consumes the
stream in exactly that order, recovering both tables. -/
theorem estimates_file_layout :
    (∀ (versionRequired versionWritten : Int) (e : CBlockPolicyEstimator),
        writeFeeEstimatesFile versionRequired versionWritten e
          = SerItem.i versionRequired :: SerItem.i versionWritten ::
            SerItem.i (e.nBestSeenHeight : Int) ::
            (e.feeStats.WriteStream ++ e.priStats.WriteStream))
    ∧ (∀ (versionRequired versionWritten : Int) (e : CBlockPolicyEstimator),
        versionRequired < 100000 →
        StatsValid e.feeStats → StatsValid e.priStats →
        mainRead (writeFeeEstimatesFile versionRequired versionWritten e)
          = .ok ((versionRequired, versionWritten, (e.nBestSeenHeight : Int)),
              statOfStats e.feeStats, statOfStats e.priStats, [])) := by
  constructor
  · intro vreq vw e
    rfl
  · intro vreq vw e hv hfee hpri
    obtain ⟨f1, f2, f3, f4, f5, f6, f7, f8, f9, f10, f11, f12, f13, f14⟩ := hfee
    obtain ⟨p1, p2, p3, p4, p5, p6, p7, p8, p9, p10, p11, p12, p13, p14⟩ := hpri
    have hfeeStream : e.feeStats.WriteStream ++ e.priStats.WriteStream
        = .d e.feeStats.decay :: .sz e.feeStats.confAvg.length ::
          .vec e.feeStats.buckets :: .vec e.feeStats.avg ::
          .vec e.feeStats.txCtAvg ::
          (e.feeStats.confAvg.map SerItem.vec ++ e.priStats.WriteStream) := by
      unfold TxConfirmStats.WriteStream
      simp
    have hpriStream : e.priStats.WriteStream
        = .d e.priStats.decay :: .sz e.priStats.confAvg.length ::
          .vec e.priStats.buckets :: .vec e.priStats.avg ::
          .vec e.priStats.txCtAvg ::
          (e.priStats.confAvg.map SerItem.vec ++ []) := by
      unfold TxConfirmStats.WriteStream
      rw [List.append_nil]
    have hreadFee := ReadV_legacy_format TxConfirmStat.fresh vreq hv
      e.feeStats.decay e.feeStats.buckets e.feeStats.avg e.feeStats.txCtAvg
      e.feeStats.confAvg e.priStats.WriteStream f1 f2 f3 f4 f5 f6 f8 f9 f7
    have hreadPri := ReadV_legacy_format TxConfirmStat.fresh vreq hv
      e.priStats.decay e.priStats.buckets e.priStats.avg e.priStats.txCtAvg
      e.priStats.confAvg [] p1 p2 p3 p4 p5 p6 p8 p9 p7
    unfold mainRead writeFeeEstimatesFile CBlockPolicyEstimator.WriteStream
    rw [hfeeStream]
    simp only [readI, Bind.bind, Except.bind, hreadFee]
    rw [hpriStream]
    simp only [hreadPri, Except.bind]
    simp [statOfStats, TxConfirmStat.fresh, Bind.bind, Except.bind, pure,
      Except.pure]

end BtcSpec
